import Mathlib

/-!
# Bond yield-to-maturity calculator (`ytm_calculator.c`)

A shallow embedding of the pricing function `bond_price_from_periodic_rate` and of the
solver `ytm_bisection`.

Modelling conventions.

* A C `double` is an element of a linearly ordered field `α` with a floor function, and
  the arithmetic is exact.  Every definition is generic in `α`: over `ℚ` it can be
  evaluated, over `ℝ` the library power function is available.
* A C `int` is an element of `ℤ`.  The one place where a value can leave the range of
  `int`, the conversion `(int) round(...)`, is modelled by `int_cast`; the loop counters
  stay in range.
* `round` rounds half away from zero (`round_half_away`); `c_round` is `round` followed by
  the cast to `int`.  The product `years * periods_per_year` is taken exact; the program
  rounds it to a `double` before `round` is applied.
* The theorems are statements about this exact-arithmetic reading of the program.  Where
  a property holds in exact arithmetic but the `double` program attains it only up to
  rounding, the doc comment of the theorem says so.
* `pow (x, t)` with an integer valued `t` is field exponentiation.  The one call with a
  fractional exponent, `pow (face / price, 1.0 / N)`, goes through the parameter `powf`
  (instantiated with the real power function when the theorems need its value).
* `NAN` in a field of `YTMResult` is `none`; the message written to `stderr` is the error
  kind carried by `YTMOutcome.stderr`.
-/

set_option linter.unusedSectionVars false
set_option linter.unusedVariables false

namespace YTM

variable {α : Type*} [LinearOrderedField α] [FloorRing α]

/-- The C library function `round`: the nearest integer, halves away from zero. -/
def round_half_away (x : α) : ℤ :=
  if 0 ≤ x then ⌊x + 1 / 2⌋ else ⌈x - 1 / 2⌉

/-- The conversion `(int)` of an integral value.  Inside the range of a 32-bit `int` it is
the value itself.  Outside that range the conversion is undefined in C; the value taken
here is `INT_MIN`, which the x86-64 conversion instructions return. -/
def int_cast (z : ℤ) : ℤ :=
  if -2147483648 ≤ z ∧ z ≤ 2147483647 then z else -2147483648

/-- The period count `(int) round(x)` held in the `int N` of lines 12 and 24. -/
def c_round (x : α) : ℤ :=
  int_cast (round_half_away x)

/-- The loop `for (int t = 1; t <= N; t++) total += coupon / pow(1 + r, t);` run from
`total = 0`; the `i`-th pass (counted from `0`) has `t = i + 1`. -/
def coupon_loop (coupon r : α) (N : ℕ) : α :=
  (List.range N).foldl (fun total i => total + coupon / (1 + r) ^ (i + 1)) 0

/-- Present value of the bond at the periodic rate `r` (source lines 11-21). -/
def bond_price_from_periodic_rate (r face annual_coupon_rate years : α)
    (periods_per_year : ℤ) : α :=
  let N : ℤ := c_round (years * (periods_per_year : α))
  if N ≤ 0 then 0
  else
    let coupon := face * annual_coupon_rate / (periods_per_year : α)
    let total := coupon_loop coupon r N.toNat
    total + face / (1 + r) ^ N.toNat

/-- The three `double` fields of the C struct `YTMResult`; `none` stands for `NAN`. -/
structure YTMResult (α : Type*) where
  periodic : Option α
  annual_effective : Option α
  nominal_apr : Option α

/-- The message written to `stderr` on a failure path, named as in the specification:
line 26 is `InvalidPeriods`, line 32 is `InvalidPrice`, line 52 is `UnbracketableRoot`. -/
inductive YTMError where
  | InvalidPeriods
  | InvalidPrice
  | UnbracketableRoot
  deriving DecidableEq, Repr

/-- What a call of `ytm_bisection` produces: the returned struct and the error message it
printed, if any. -/
structure YTMOutcome (α : Type*) where
  stderr : Option YTMError
  res : YTMResult α

/-- The initial value `YTMResult res = {NAN, NAN, NAN}`. -/
def nan_result : YTMResult α := ⟨none, none, none⟩

/-- The bracket expansion loop of lines 46-50, `f` being the pricing error
`r ↦ bond_price_from_periodic_rate (r, ...) - price`.  The first argument is the number of
tries still allowed, `100 - tries`.  Returns the final `(high, f_high)`. -/
def expand_loop (f : α → α) (f_low : α) : ℕ → α → α → α × α
  | 0, high, f_high => (high, f_high)
  | k + 1, high, f_high =>
    if f_low * f_high > 0 then expand_loop f f_low k (high * 2) (f (high * 2))
    else (high, f_high)

/-- The bisection loop of lines 56-72 followed by lines 73-76.  The first argument is the
number of passes still to run, `max_iter - iter`.  Returns the struct `res` as filled on
the early exit (lines 60-63) or after the last pass (lines 73-76). -/
def bisect_loop (f : α → α) (tol : α) (periods_per_year : ℤ) : ℕ → α → α → α → YTMResult α
  | 0, low, high, _ =>
    let periodic := 1 / 2 * (low + high)
    ⟨some periodic, some ((1 + periodic) ^ periods_per_year - 1),
      some (periodic * (periods_per_year : α))⟩
  | k + 1, low, high, f_low =>
    let mid := 1 / 2 * (low + high)
    let f_mid := f mid
    if |f_mid| < tol then
      ⟨some mid, some ((1 + mid) ^ periods_per_year - 1), some (mid * (periods_per_year : α))⟩
    else if f_low * f_mid < 0 then bisect_loop f tol periods_per_year k low mid f_low
    else bisect_loop f tol periods_per_year k mid high f_mid

/-- The solver (source lines 22-77). -/
def ytm_bisection (powf : α → α → α) (face annual_coupon_rate years price : α)
    (periods_per_year : ℤ) (tol : α) (max_iter : ℤ) : YTMOutcome α :=
  let N : ℤ := c_round (years * (periods_per_year : α))
  if N ≤ 0 then ⟨some .InvalidPeriods, nan_result⟩
  else
    let coupon := face * annual_coupon_rate / (periods_per_year : α)
    if |coupon| < 1 / 10 ^ 12 then
      if price ≤ 0 then ⟨some .InvalidPrice, nan_result⟩
      else
        let periodic := powf (face / price) (1 / (N : α)) - 1
        ⟨none, ⟨some periodic, some ((1 + periodic) ^ periods_per_year - 1),
          some (periodic * (periods_per_year : α))⟩⟩
    else
      let low : α := -(999999 / 1000000)
      let high : α := 10
      let f : α → α := fun r =>
        bond_price_from_periodic_rate r face annual_coupon_rate years periods_per_year - price
      let f_low := f low
      let f_high := f high
      let hf := expand_loop f f_low 100 high f_high
      if f_low * hf.2 > 0 then ⟨some .UnbracketableRoot, nan_result⟩
      else ⟨none, bisect_loop f tol periods_per_year max_iter.toNat low hf.1 f_low⟩

/-! ## Definitions used to state the properties -/

/-- A fully populated result derived from the periodic rate `p`. -/
def fill_result (p : α) (periods_per_year : ℤ) : YTMResult α :=
  ⟨some p, some ((1 + p) ^ periods_per_year - 1), some (p * (periods_per_year : α))⟩

/-- The periodic rate accepted by `bisect_loop`: the first midpoint whose pricing error is
below the tolerance, or the midpoint of the bracket left after the last pass. -/
def bisect_rate (f : α → α) (tol : α) : ℕ → α → α → α → α
  | 0, low, high, _ => 1 / 2 * (low + high)
  | k + 1, low, high, f_low =>
    if |f (1 / 2 * (low + high))| < tol then 1 / 2 * (low + high)
    else if f_low * f (1 / 2 * (low + high)) < 0 then
      bisect_rate f tol k low (1 / 2 * (low + high)) f_low
    else bisect_rate f tol k (1 / 2 * (low + high)) high (f (1 / 2 * (low + high)))

/-- The pricing error `f (r) = bond_price_from_periodic_rate (r, ...) - price` that the
solver drives to zero. -/
def price_error (face annual_coupon_rate years price : α) (periods_per_year : ℤ) (r : α) : α :=
  bond_price_from_periodic_rate r face annual_coupon_rate years periods_per_year - price

/-- Reference present value, following the specification's formula
`Σ_{t=1..N} coupon / (1+rate)^t + face_value / (1+rate)^N`. -/
def pv_reference (coupon face r : α) (N : ℕ) : α :=
  (∑ t in Finset.Icc 1 N, coupon / (1 + r) ^ t) + face / (1 + r) ^ N

/-- The bracket update of lines 65-71 on the loop state `(low, high, f_low)`: the pass of
a midpoint that did not meet the tolerance. -/
def bisect_step (f : α → α) (s : α × α × α) : α × α × α :=
  let mid := 1 / 2 * (s.1 + s.2.1)
  let f_mid := f mid
  if s.2.2 * f_mid < 0 then (s.1, mid, s.2.2) else (mid, s.2.1, f_mid)

/-- The loop state `(low, high, f_low)` after `k` passes of the bisection loop, none of
which returned. -/
def bracket_after (f : α → α) (s : α × α × α) (k : ℕ) : α × α × α :=
  (bisect_step f)^[k] s

/-- The midpoint `0.5 * (low + high)` of the bracket of a loop state (line 57). -/
def bracket_mid (s : α × α × α) : α := 1 / 2 * (s.1 + s.2.1)

/-- The loop state `(low, high, f_low)` with which the solver enters the bisection loop:
`low = -0.999999`, `high` as left by the bracket expansion (lines 41-50). -/
def initial_bracket (face annual_coupon_rate years price : α) (periods_per_year : ℤ) :
    α × α × α :=
  let f : α → α := fun r =>
    bond_price_from_periodic_rate r face annual_coupon_rate years periods_per_year - price
  let low : α := -(999999 / 1000000)
  (low, (expand_loop f (f low) 100 10 (f 10)).1, f low)

/-! ## Pricing model -/

theorem coupon_loop_succ (coupon r : α) (N : ℕ) :
    coupon_loop coupon r (N + 1) = coupon_loop coupon r N + coupon / (1 + r) ^ (N + 1) := by
  simp [coupon_loop, List.range_succ, List.foldl_append]

theorem coupon_loop_eq_sum (coupon r : α) (N : ℕ) :
    coupon_loop coupon r N = ∑ t in Finset.Icc 1 N, coupon / (1 + r) ^ t := by
  induction N with
  | zero => simp [coupon_loop]
  | succ n ih =>
    rw [coupon_loop_succ, ih, Finset.sum_Icc_succ_top (by omega)]

/-- In exact arithmetic: with `N = c_round (years * periods_per_year)` and
`coupon = face * annual_coupon_rate / periods_per_year`, the loop of the pricing function
adds up to `Σ_{t=1..N} coupon/(1+r)^t + face/(1+r)^N` when `N ≥ 1`, and the function
returns `0` when `N ≤ 0`.  The `double` program returns the rounded evaluation of that
sum. -/
theorem bond_price_eq_reference (r face annual_coupon_rate years : α) (periods_per_year : ℤ)
    (hr : r ≠ -1) :
    bond_price_from_periodic_rate r face annual_coupon_rate years periods_per_year
      = if 1 ≤ c_round (years * (periods_per_year : α)) then
          pv_reference (face * annual_coupon_rate / (periods_per_year : α)) face r
            (c_round (years * (periods_per_year : α))).toNat
        else 0 := by
  have _ := hr
  by_cases hN : c_round (years * (periods_per_year : α)) ≤ 0
  · have hN1 : ¬ 1 ≤ c_round (years * (periods_per_year : α)) := by omega
    simp only [bond_price_from_periodic_rate, hN, hN1, if_true, if_false]
  · have hN1 : 1 ≤ c_round (years * (periods_per_year : α)) := by omega
    simp only [bond_price_from_periodic_rate, hN, hN1, if_true, if_false, pv_reference,
      coupon_loop_eq_sum]

/-- The pricing function in terms of the reference formula once `N ≥ 1` is known. -/
theorem bond_price_of_pos (r face annual_coupon_rate years : α) (periods_per_year : ℤ)
    (hN : 1 ≤ c_round (years * (periods_per_year : α))) :
    bond_price_from_periodic_rate r face annual_coupon_rate years periods_per_year
      = pv_reference (face * annual_coupon_rate / (periods_per_year : α)) face r
          (c_round (years * (periods_per_year : α))).toNat := by
  have hN0 : ¬ c_round (years * (periods_per_year : α)) ≤ 0 := by omega
  simp only [bond_price_from_periodic_rate, hN0, if_false, pv_reference, coupon_loop_eq_sum]

/-- The reference present value is antitone in the rate on `(-1, ∞)` when coupon and face
are non-negative. -/
theorem pv_reference_anti (coupon face : α) (N : ℕ) (hc : 0 ≤ coupon) (hf : 0 ≤ face)
    (r₁ r₂ : α) (h₁ : -1 < r₁) (h₁₂ : r₁ ≤ r₂) :
    pv_reference coupon face r₂ N ≤ pv_reference coupon face r₁ N := by
  have hb₁ : 0 < 1 + r₁ := by linarith
  have hb : 1 + r₁ ≤ 1 + r₂ := by linarith
  unfold pv_reference
  apply add_le_add
  · apply Finset.sum_le_sum
    intro t _
    exact div_le_div_of_nonneg_left hc (pow_pos hb₁ t) (pow_le_pow_left₀ hb₁.le hb t)
  · exact div_le_div_of_nonneg_left hf (pow_pos hb₁ N) (pow_le_pow_left₀ hb₁.le hb N)

/-- The reference present value is strictly decreasing in the rate on `(-1, ∞)` when the
coupon is non-negative, the face value positive and there is at least one period. -/
theorem pv_reference_strictAnti (coupon face : α) (N : ℕ) (hc : 0 ≤ coupon) (hf : 0 < face)
    (hN : 1 ≤ N) (r₁ r₂ : α) (h₁ : -1 < r₁) (h₁₂ : r₁ < r₂) :
    pv_reference coupon face r₂ N < pv_reference coupon face r₁ N := by
  have hb₁ : 0 < 1 + r₁ := by linarith
  have hb : 1 + r₁ < 1 + r₂ := by linarith
  unfold pv_reference
  apply add_lt_add_of_le_of_lt
  · apply Finset.sum_le_sum
    intro t _
    exact div_le_div_of_nonneg_left hc (pow_pos hb₁ t) (pow_le_pow_left₀ hb₁.le hb.le t)
  · exact div_lt_div_of_pos_left hf (pow_pos hb₁ N) (pow_lt_pow_left₀ hb hb₁.le (by omega))

/-- The reference present value is positive at rates above `-1`. -/
theorem pv_reference_pos (coupon face : α) (N : ℕ) (hc : 0 ≤ coupon) (hf : 0 < face)
    (r : α) (hr : -1 < r) : 0 < pv_reference coupon face r N := by
  have hb : 0 < 1 + r := by linarith
  unfold pv_reference
  apply add_pos_of_nonneg_of_pos
  · apply Finset.sum_nonneg
    intro t _
    exact div_nonneg hc (pow_pos hb t).le
  · exact div_pos hf (pow_pos hb N)

/-- In exact arithmetic a higher rate above `-1` gives a strictly lower price.  The `double`
program gives equal prices at rates that are close enough. -/
theorem price_lt_of_rate_lt (face annual_coupon_rate years : α)
    (periods_per_year : ℤ) (r₁ r₂ : α)
    (hface : 0 < face)
    (hcoupon : 0 ≤ face * annual_coupon_rate / (periods_per_year : α))
    (hN : 1 ≤ c_round (years * (periods_per_year : α)))
    (h₁ : -1 < r₁) (h₁₂ : r₁ < r₂) :
    bond_price_from_periodic_rate r₂ face annual_coupon_rate years periods_per_year
      < bond_price_from_periodic_rate r₁ face annual_coupon_rate years periods_per_year := by
  rw [bond_price_of_pos _ _ _ _ _ hN, bond_price_of_pos _ _ _ _ _ hN]
  exact pv_reference_strictAnti _ _ _ hcoupon hface
    (by have := Int.toNat_of_nonneg (by omega : 0 ≤ c_round (years * (periods_per_year : α)))
        omega) _ _ h₁ h₁₂

/-- The pricing error is strictly decreasing in the rate on `(-1, ∞)`. -/
theorem price_error_lt (face annual_coupon_rate years price : α)
    (periods_per_year : ℤ) (r₁ r₂ : α)
    (hface : 0 < face)
    (hcoupon : 0 ≤ face * annual_coupon_rate / (periods_per_year : α))
    (hN : 1 ≤ c_round (years * (periods_per_year : α)))
    (h₁ : -1 < r₁) (h₁₂ : r₁ < r₂) :
    price_error face annual_coupon_rate years price periods_per_year r₂
      < price_error face annual_coupon_rate years price periods_per_year r₁ := by
  unfold price_error
  have := price_lt_of_rate_lt face annual_coupon_rate years periods_per_year r₁ r₂ hface
    hcoupon hN h₁ h₁₂
  linarith

/-- The pricing error is antitone in the rate on `(-1, ∞)`. -/
theorem price_error_le (face annual_coupon_rate years price : α)
    (periods_per_year : ℤ) (r₁ r₂ : α)
    (hface : 0 < face)
    (hcoupon : 0 ≤ face * annual_coupon_rate / (periods_per_year : α))
    (hN : 1 ≤ c_round (years * (periods_per_year : α)))
    (h₁ : -1 < r₁) (h₁₂ : r₁ ≤ r₂) :
    price_error face annual_coupon_rate years price periods_per_year r₂
      ≤ price_error face annual_coupon_rate years price periods_per_year r₁ := by
  rcases eq_or_lt_of_le h₁₂ with h | h
  · rw [h]
  · exact (price_error_lt face annual_coupon_rate years price periods_per_year r₁ r₂ hface
      hcoupon hN h₁ h).le

/-! ## Solver: the validation and closed-form branches -/

/-- The struct returned by the bisection loop is the one derived from `bisect_rate`. -/
theorem bisect_loop_eq_fill (f : α → α) (tol : α) (periods_per_year : ℤ) (n : ℕ)
    (low high f_low : α) :
    bisect_loop f tol periods_per_year n low high f_low
      = fill_result (bisect_rate f tol n low high f_low) periods_per_year := by
  induction n generalizing low high f_low with
  | zero => simp only [bisect_loop, bisect_rate, fill_result]
  | succ k ih =>
    simp only [bisect_loop, bisect_rate]
    split_ifs
    · simp only [fill_result]
    · exact ih _ _ _
    · exact ih _ _ _

/-- The outcome of the solver on its failure path for the period count. -/
theorem ytm_of_periods_le (powf : α → α → α) (face annual_coupon_rate years price : α)
    (periods_per_year : ℤ) (tol : α) (max_iter : ℤ)
    (hN : c_round (years * (periods_per_year : α)) ≤ 0) :
    ytm_bisection powf face annual_coupon_rate years price periods_per_year tol max_iter
      = ⟨some .InvalidPeriods, nan_result⟩ := by
  simp only [ytm_bisection, hN, if_true]

/-- The outcome of the solver on the zero-coupon branch with a non-positive price. -/
theorem ytm_of_zero_coupon_bad_price (powf : α → α → α)
    (face annual_coupon_rate years price : α) (periods_per_year : ℤ) (tol : α) (max_iter : ℤ)
    (hN : 1 ≤ c_round (years * (periods_per_year : α)))
    (hc : |face * annual_coupon_rate / (periods_per_year : α)| < 1 / 10 ^ 12)
    (hp : price ≤ 0) :
    ytm_bisection powf face annual_coupon_rate years price periods_per_year tol max_iter
      = ⟨some .InvalidPrice, nan_result⟩ := by
  have hN0 : ¬ c_round (years * (periods_per_year : α)) ≤ 0 := by omega
  simp only [ytm_bisection, hN0, hc, hp, if_true, if_false]

/-- The outcome of the solver on the zero-coupon branch with a positive price. -/
theorem ytm_of_zero_coupon (powf : α → α → α)
    (face annual_coupon_rate years price : α) (periods_per_year : ℤ) (tol : α) (max_iter : ℤ)
    (hN : 1 ≤ c_round (years * (periods_per_year : α)))
    (hc : |face * annual_coupon_rate / (periods_per_year : α)| < 1 / 10 ^ 12)
    (hp : 0 < price) :
    ytm_bisection powf face annual_coupon_rate years price periods_per_year tol max_iter
      = ⟨none, fill_result
          (powf (face / price) (1 / ((c_round (years * (periods_per_year : α)) : ℤ) : α)) - 1)
          periods_per_year⟩ := by
  have hN0 : ¬ c_round (years * (periods_per_year : α)) ≤ 0 := by omega
  have hp0 : ¬ price ≤ 0 := not_le.mpr hp
  simp only [ytm_bisection, hN0, hc, hp0, if_true, if_false, fill_result]

/-- The outcome of the solver on the bisection branch. -/
theorem ytm_of_coupon (powf : α → α → α)
    (face annual_coupon_rate years price : α) (periods_per_year : ℤ) (tol : α) (max_iter : ℤ)
    (hN : 1 ≤ c_round (years * (periods_per_year : α)))
    (hc : ¬ |face * annual_coupon_rate / (periods_per_year : α)| < 1 / 10 ^ 12) :
    ytm_bisection powf face annual_coupon_rate years price periods_per_year tol max_iter
      = if price_error face annual_coupon_rate years price periods_per_year
              (-(999999 / 1000000))
            * (expand_loop (price_error face annual_coupon_rate years price periods_per_year)
                (price_error face annual_coupon_rate years price periods_per_year
                  (-(999999 / 1000000))) 100 10
                (price_error face annual_coupon_rate years price periods_per_year 10)).2 > 0
        then ⟨some .UnbracketableRoot, nan_result⟩
        else ⟨none, fill_result
          (bisect_rate (price_error face annual_coupon_rate years price periods_per_year) tol
            max_iter.toNat (-(999999 / 1000000))
            (expand_loop (price_error face annual_coupon_rate years price periods_per_year)
                (price_error face annual_coupon_rate years price periods_per_year
                  (-(999999 / 1000000))) 100 10
                (price_error face annual_coupon_rate years price periods_per_year 10)).1
            (price_error face annual_coupon_rate years price periods_per_year
              (-(999999 / 1000000)))) periods_per_year⟩ := by
  have hN0 : ¬ c_round (years * (periods_per_year : α)) ≤ 0 := by omega
  simp only [ytm_bisection, hN0, hc, if_false, bisect_loop_eq_fill]
  rfl

/-- The solver fails with `InvalidPeriods` exactly when the period count held in the `int`
`N` is less than `1`; `years = 0.01` with `periods_per_year = 1` is such a case. -/
theorem invalid_periods_iff (powf : α → α → α) (face annual_coupon_rate years price : α)
    (periods_per_year : ℤ) (tol : α) (max_iter : ℤ) :
    ((ytm_bisection powf face annual_coupon_rate years price periods_per_year tol
        max_iter).stderr = some .InvalidPeriods
      ↔ c_round (years * (periods_per_year : α)) < 1) ∧
    (ytm_bisection powf face annual_coupon_rate (1 / 100) price 1 tol max_iter).stderr
      = some .InvalidPeriods := by
  constructor
  · constructor
    · intro h
      by_contra hN
      have hN0 : ¬ c_round (years * (periods_per_year : α)) ≤ 0 := by omega
      simp only [ytm_bisection, hN0, if_false] at h
      split_ifs at h <;> simp at h
    · intro hN
      rw [ytm_of_periods_le powf face annual_coupon_rate years price periods_per_year tol
        max_iter (by omega)]
  · have h0 : c_round ((1 / 100 : α) * ((1 : ℤ) : α)) ≤ 0 := by
      norm_num [c_round, round_half_away, int_cast]
    rw [ytm_of_periods_le powf face annual_coupon_rate (1 / 100) price 1 tol max_iter h0]

/-- C7. The solver fails with `InvalidPrice` exactly when `N ≥ 1`, the per-period coupon
has `|face * annual_coupon_rate / periods_per_year| < 1e-12`, and `price ≤ 0`. -/
theorem invalid_price_iff (powf : α → α → α) (face annual_coupon_rate years price : α)
    (periods_per_year : ℤ) (tol : α) (max_iter : ℤ) :
    (ytm_bisection powf face annual_coupon_rate years price periods_per_year tol
        max_iter).stderr = some .InvalidPrice
      ↔ (1 ≤ c_round (years * (periods_per_year : α)) ∧
          |face * annual_coupon_rate / (periods_per_year : α)| < 1 / 10 ^ 12 ∧ price ≤ 0) := by
  constructor
  · intro h
    simp only [ytm_bisection] at h
    split_ifs at h with h1 h2 h3 h4 <;> simp at h
    exact ⟨by omega, h2, h3⟩
  · rintro ⟨hN, hc, hp⟩
    rw [ytm_of_zero_coupon_bad_price powf face annual_coupon_rate years price periods_per_year
      tol max_iter hN hc hp]

/-- C9. Every outcome of the solver is all-or-nothing: either no error is reported and
the three fields are populated from one accepted rate `p`, with
`annual_effective = (1 + p) ^ periods_per_year - 1` and `nominal_apr = p * periods_per_year`,
or an error is reported and all three fields are still `NAN`. -/
theorem result_all_or_nothing (powf : α → α → α) (face annual_coupon_rate years price : α)
    (periods_per_year : ℤ) (tol : α) (max_iter : ℤ) :
    ((ytm_bisection powf face annual_coupon_rate years price periods_per_year tol
        max_iter).stderr = none ∧
      ∃ p : α,
        (ytm_bisection powf face annual_coupon_rate years price periods_per_year tol
          max_iter).res
          = ⟨some p, some ((1 + p) ^ periods_per_year - 1),
              some (p * (periods_per_year : α))⟩) ∨
    ((ytm_bisection powf face annual_coupon_rate years price periods_per_year tol
        max_iter).stderr ≠ none ∧
      (ytm_bisection powf face annual_coupon_rate years price periods_per_year tol
        max_iter).res = ⟨none, none, none⟩) := by
  simp only [ytm_bisection]
  split_ifs
  · right; exact ⟨by simp, rfl⟩
  · right; exact ⟨by simp, rfl⟩
  · left; exact ⟨rfl, _, rfl⟩
  · right; exact ⟨by simp, rfl⟩
  · left; exact ⟨rfl, _, bisect_loop_eq_fill _ _ _ _ _ _ _⟩

/-! ## Solver: bracket expansion and bisection -/

/-- With a sign change already present the expansion loop does not run. -/
theorem expand_loop_of_not_pos (f : α → α) (f_low : α) (n : ℕ) (high f_high : α)
    (h : ¬ f_low * f_high > 0) : expand_loop f f_low n high f_high = (high, f_high) := by
  cases n with
  | zero => rfl
  | succ k => simp only [expand_loop, h, if_false]

/-- When the pricing error has the sign of `f_low` at every positive rate, the expansion
loop ends without a sign change. -/
theorem expand_loop_no_sign_change (f : α → α) (f_low : α)
    (hall : ∀ x, 0 < x → 0 < f_low * f x) (n : ℕ) (high f_high : α) (hhigh : 0 < high)
    (h : 0 < f_low * f_high) : 0 < f_low * (expand_loop f f_low n high f_high).2 := by
  induction n generalizing high f_high with
  | zero => exact h
  | succ k ih =>
    have h' : f_low * f_high > 0 := h
    simp only [expand_loop, h', if_true]
    exact ih (high * 2) (f (high * 2)) (by linarith) (hall _ (by linarith))

/-- Invariant of the bisection loop.  Started on a bracket with `f low > 0 ≥ f high` and a
positive tolerance, the accepted rate either meets the tolerance and lies in the bracket,
or is the midpoint of a bracket `[l, h]` inside the initial one, still with
`f l > 0 ≥ f h`, whose width is the initial width divided by `2 ^ n`. -/
theorem bisect_rate_spec (f : α → α) (tol : α) (htol : 0 < tol) (n : ℕ) (low high : α)
    (hlh : low ≤ high) (hl : 0 < f low) (hh : f high ≤ 0) :
    (|f (bisect_rate f tol n low high (f low))| < tol ∧
        low ≤ bisect_rate f tol n low high (f low) ∧
        bisect_rate f tol n low high (f low) ≤ high) ∨
    (∃ l h : α, low ≤ l ∧ h ≤ high ∧ 0 < f l ∧ f h ≤ 0 ∧ h - l = (high - low) / 2 ^ n ∧
        bisect_rate f tol n low high (f low) = 1 / 2 * (l + h)) := by
  induction n generalizing low high with
  | zero =>
    right
    exact ⟨low, high, le_rfl, le_rfl, hl, hh, by simp, rfl⟩
  | succ k ih =>
    have hm₁ : low ≤ 1 / 2 * (low + high) := by linarith
    have hm₂ : 1 / 2 * (low + high) ≤ high := by linarith
    simp only [bisect_rate]
    by_cases hexit : |f (1 / 2 * (low + high))| < tol
    · left
      rw [if_pos hexit]
      exact ⟨hexit, hm₁, hm₂⟩
    · rw [if_neg hexit]
      have hne : f (1 / 2 * (low + high)) ≠ 0 := by
        intro h0
        apply hexit
        rw [h0, abs_zero]
        exact htol
      by_cases hsign : f low * f (1 / 2 * (low + high)) < 0
      · rw [if_pos hsign]
        have hneg : f (1 / 2 * (low + high)) < 0 := by
          by_contra hcon
          have : 0 ≤ f low * f (1 / 2 * (low + high)) :=
            mul_nonneg hl.le (not_lt.mp hcon)
          linarith
        rcases ih low (1 / 2 * (low + high)) hm₁ hl hneg.le with h | ⟨l, h, h1, h2, h3, h4, h5, h6⟩
        · left
          exact ⟨h.1, h.2.1, le_trans h.2.2 hm₂⟩
        · right
          refine ⟨l, h, h1, le_trans h2 hm₂, h3, h4, ?_, h6⟩
          rw [h5, pow_succ]
          field_simp
          ring
      · rw [if_neg hsign]
        have hpos : 0 < f (1 / 2 * (low + high)) := by
          rcases lt_trichotomy (f (1 / 2 * (low + high))) 0 with hlt | heq | hgt
          · exact absurd (mul_neg_of_pos_of_neg hl hlt) hsign
          · exact absurd heq hne
          · exact hgt
        rcases ih (1 / 2 * (low + high)) high hm₂ hpos hh with h | ⟨l, h, h1, h2, h3, h4, h5, h6⟩
        · left
          exact ⟨h.1, le_trans hm₁ h.2.1, h.2.2⟩
        · right
          refine ⟨l, h, le_trans hm₁ h1, h2, h3, h4, ?_, h6⟩
          rw [h5, pow_succ]
          field_simp
          ring

/-! ## Zero-coupon bonds -/

/-- The real `N`-th root used by the closed form, raised to the power `N`. -/
theorem rpow_inv_pow_toNat (x : ℝ) (hx : 0 ≤ x) (N : ℤ) (hN : 1 ≤ N) :
    (x ^ (1 / (N : ℝ))) ^ N.toNat = x := by
  have hcast : ((N.toNat : ℕ) : ℝ) = (N : ℝ) := by
    have h : ((N.toNat : ℕ) : ℤ) = N := Int.toNat_of_nonneg (by omega)
    exact_mod_cast h
  have hne : (N : ℝ) ≠ 0 := by
    have : (0 : ℝ) < N := by exact_mod_cast (by omega : (0 : ℤ) < N)
    exact this.ne.symm
  rw [← Real.rpow_natCast, ← Real.rpow_mul hx, hcast, one_div, inv_mul_cancel₀ hne,
    Real.rpow_one]

/-- The fifth root of `1000 / 800` lies between `1.045635` and `1.045645`. -/
theorem fifth_root_bounds :
    (1045635 / 1000000 : ℝ) < (1000 / 800 : ℝ) ^ ((1 : ℝ) / 5) ∧
    (1000 / 800 : ℝ) ^ ((1 : ℝ) / 5) < 1045645 / 1000000 := by
  have hx : (0 : ℝ) ≤ 1000 / 800 := by norm_num
  have h5 : ((1000 / 800 : ℝ) ^ ((1 : ℝ) / 5)) ^ 5 = 1000 / 800 := by
    have := rpow_inv_pow_toNat (1000 / 800) hx 5 (by norm_num)
    simpa using this
  have hpos : (0 : ℝ) ≤ (1000 / 800 : ℝ) ^ ((1 : ℝ) / 5) := Real.rpow_nonneg hx _
  constructor
  · by_contra hcon
    have hle := pow_le_pow_left₀ hpos (not_lt.mp hcon) 5
    rw [h5] at hle
    norm_num at hle
  · by_contra hcon
    have hle := pow_le_pow_left₀ (by norm_num : (0 : ℝ) ≤ 1045645 / 1000000) (not_lt.mp hcon) 5
    rw [h5] at hle
    norm_num at hle

/-- C4. Whenever `N ≥ 1`, `|face * annual_coupon_rate / periods_per_year| < 1e-12` and
`price > 0`, the solver succeeds through the closed form alone: its outcome is the result
derived from `periodic = (face / price) ^ (1 / N) - 1`, whatever `tol` and `max_iter` are.
For `face = 1000`, `coupon_rate = 0`, `years = 5`, `price = 800`, `periods_per_year = 1`
the periodic rate is `(1000 / 800) ^ (1 / 5) - 1`, which is `0.04564` to five decimal
places. -/
theorem zero_coupon_closed_form (powf : α → α → α) (face annual_coupon_rate years price : α)
    (periods_per_year : ℤ) (tol : α) (max_iter : ℤ)
    (hN : 1 ≤ c_round (years * (periods_per_year : α)))
    (hc : |face * annual_coupon_rate / (periods_per_year : α)| < 1 / 10 ^ 12)
    (hp : 0 < price) :
    ytm_bisection powf face annual_coupon_rate years price periods_per_year tol max_iter
      = ⟨none, fill_result
          (powf (face / price) (1 / ((c_round (years * (periods_per_year : α)) : ℤ) : α)) - 1)
          periods_per_year⟩ ∧
    (∀ (t : ℝ) (m : ℤ),
      ytm_bisection (fun x y : ℝ => x ^ y) 1000 0 5 800 1 t m
        = ⟨none, fill_result ((1000 / 800 : ℝ) ^ ((1 : ℝ) / 5) - 1) 1⟩) ∧
    |((1000 / 800 : ℝ) ^ ((1 : ℝ) / 5) - 1) - 4564 / 100000| < 5 / 1000000 := by
  refine ⟨ytm_of_zero_coupon powf face annual_coupon_rate years price periods_per_year tol
    max_iter hN hc hp, ?_, ?_⟩
  · intro t m
    have h5 : c_round ((5 : ℝ) * ((1 : ℤ) : ℝ)) = 5 := by norm_num [c_round, round_half_away, int_cast]
    rw [ytm_of_zero_coupon (fun x y : ℝ => x ^ y) 1000 0 5 800 1 t m (by rw [h5]; norm_num)
      (by norm_num) (by norm_num), h5]
    norm_num
  · have hb := fifth_root_bounds
    rw [abs_lt]
    constructor <;> linarith [hb.1, hb.2]

/-- Witness for C4: the zero-coupon bond of the specification's scenario. -/
theorem zero_coupon_closed_form_witness :
    1 ≤ c_round ((5 : ℝ) * ((1 : ℤ) : ℝ)) ∧
    |(1000 : ℝ) * 0 / ((1 : ℤ) : ℝ)| < 1 / 10 ^ 12 ∧ (0 : ℝ) < 800 ∧
    ytm_bisection (fun x y : ℝ => x ^ y) 1000 0 5 800 1 (1 / 10 ^ 9) 200
      = ⟨none, fill_result
          ((fun x y : ℝ => x ^ y) ((1000 : ℝ) / 800)
            (1 / ((c_round ((5 : ℝ) * ((1 : ℤ) : ℝ)) : ℤ) : ℝ)) - 1) 1⟩ :=
  ⟨by norm_num [c_round, round_half_away, int_cast], by norm_num, by norm_num,
    (zero_coupon_closed_form (fun x y : ℝ => x ^ y) 1000 0 5 800 1 (1 / 10 ^ 9) 200
      (by norm_num [c_round, round_half_away, int_cast]) (by norm_num) (by norm_num)).1⟩

/-- In exact arithmetic, with the real power function: on a zero-coupon bond with a positive
price the solver succeeds and the rate of the closed form reprices the bond exactly.  The
`double` program reprices only up to rounding. -/
theorem zero_coupon_exact (face years price tol : ℝ) (periods_per_year max_iter : ℤ)
    (hface : 0 < face) (hN : 1 ≤ c_round (years * (periods_per_year : ℝ)))
    (hp : 0 < price) :
    ∃ p : ℝ,
      ytm_bisection (fun x y : ℝ => x ^ y) face 0 years price periods_per_year tol max_iter
        = ⟨none, fill_result p periods_per_year⟩ ∧
      bond_price_from_periodic_rate p face 0 years periods_per_year = price := by
  have hc : |face * 0 / (periods_per_year : ℝ)| < 1 / 10 ^ 12 := by norm_num
  refine ⟨_, ytm_of_zero_coupon (fun x y : ℝ => x ^ y) face 0 years price periods_per_year
    tol max_iter hN hc hp, ?_⟩
  have hx : 0 ≤ face / price := (div_pos hface hp).le
  rw [bond_price_of_pos _ _ _ _ _ hN]
  simp only [pv_reference, mul_zero, zero_div, Finset.sum_const_zero, zero_add,
    add_sub_cancel]
  rw [rpow_inv_pow_toNat _ hx _ hN]
  field_simp

/-! ## Coupon bonds: bracketing and accuracy -/

/-- A per-period coupon of at least `1e-12` sends the solver to the bisection branch. -/
theorem not_zero_coupon_of_le (coupon : α) (h : 1 / 10 ^ 12 ≤ coupon) :
    ¬ |coupon| < 1 / 10 ^ 12 := by
  intro hlt
  have := le_abs_self coupon
  linarith

/-- When the default bracket already shows a sign change the solver succeeds with the rate
accepted by the bisection loop on `[-0.999999, 10]`. -/
theorem ytm_of_bracket (powf : α → α → α)
    (face annual_coupon_rate years price : α) (periods_per_year : ℤ) (tol : α) (max_iter : ℤ)
    (hN : 1 ≤ c_round (years * (periods_per_year : α)))
    (hc : ¬ |face * annual_coupon_rate / (periods_per_year : α)| < 1 / 10 ^ 12)
    (hsign : ¬ price_error face annual_coupon_rate years price periods_per_year
        (-(999999 / 1000000))
      * price_error face annual_coupon_rate years price periods_per_year 10 > 0) :
    ytm_bisection powf face annual_coupon_rate years price periods_per_year tol max_iter
      = ⟨none, fill_result
          (bisect_rate (price_error face annual_coupon_rate years price periods_per_year) tol
            max_iter.toNat (-(999999 / 1000000)) 10
            (price_error face annual_coupon_rate years price periods_per_year
              (-(999999 / 1000000)))) periods_per_year⟩ := by
  rw [ytm_of_coupon powf face annual_coupon_rate years price periods_per_year tol max_iter hN hc,
    expand_loop_of_not_pos _ _ _ _ _ hsign]
  simp only [hsign, if_false]

/-- Round trip on the bisection branch.  For a bond with `face > 0`, per-period coupon at
least `1e-12` and `N ≥ 1`, a positive tolerance and a rate `r` with `-0.999999 < r ≤ 10`,
the solver applied to the price at `r` succeeds, and the rate `p` it returns either
reprices within the tolerance or is within `10.999999 / 2 ^ (max_iter + 1)` of `r`. -/
theorem coupon_round_trip (powf : α → α → α)
    (face annual_coupon_rate years r : α) (periods_per_year : ℤ) (tol : α) (max_iter : ℤ)
    (hface : 0 < face)
    (hN : 1 ≤ c_round (years * (periods_per_year : α)))
    (hc : 1 / 10 ^ 12 ≤ face * annual_coupon_rate / (periods_per_year : α))
    (htol : 0 < tol) (hr : -(999999 / 1000000) < r) (hr' : r ≤ 10) :
    ∃ p : α,
      ytm_bisection powf face annual_coupon_rate years
          (bond_price_from_periodic_rate r face annual_coupon_rate years periods_per_year)
          periods_per_year tol max_iter
        = ⟨none, fill_result p periods_per_year⟩ ∧
      (|bond_price_from_periodic_rate p face annual_coupon_rate years periods_per_year
          - bond_price_from_periodic_rate r face annual_coupon_rate years periods_per_year|
          < tol ∨
        |p - r| ≤ (10 + 999999 / 1000000) / 2 ^ (max_iter.toNat + 1)) := by
  have hc0 : 0 ≤ face * annual_coupon_rate / (periods_per_year : α) :=
    le_trans (by positivity) hc
  have hlow : (-1 : α) < -(999999 / 1000000) := by norm_num
  have hroot : price_error face annual_coupon_rate years
      (bond_price_from_periodic_rate r face annual_coupon_rate years periods_per_year)
      periods_per_year r = 0 := by
    simp only [price_error, sub_self]
  have hfl : 0 < price_error face annual_coupon_rate years
      (bond_price_from_periodic_rate r face annual_coupon_rate years periods_per_year)
      periods_per_year (-(999999 / 1000000)) := by
    rw [← hroot]
    exact price_error_lt face annual_coupon_rate years _ periods_per_year _ _ hface hc0 hN
      hlow hr
  have hfh : price_error face annual_coupon_rate years
      (bond_price_from_periodic_rate r face annual_coupon_rate years periods_per_year)
      periods_per_year 10 ≤ 0 := by
    rw [← hroot]
    exact price_error_le face annual_coupon_rate years _ periods_per_year _ _ hface hc0 hN
      (by linarith) hr'
  have hsign : ¬ price_error face annual_coupon_rate years
      (bond_price_from_periodic_rate r face annual_coupon_rate years periods_per_year)
      periods_per_year (-(999999 / 1000000))
      * price_error face annual_coupon_rate years
      (bond_price_from_periodic_rate r face annual_coupon_rate years periods_per_year)
      periods_per_year 10 > 0 := by
    have := mul_nonpos_of_nonneg_of_nonpos hfl.le hfh
    exact not_lt.mpr this
  refine ⟨_, ytm_of_bracket powf face annual_coupon_rate years _ periods_per_year tol max_iter
    hN (not_zero_coupon_of_le _ hc) hsign, ?_⟩
  rcases bisect_rate_spec (price_error face annual_coupon_rate years
      (bond_price_from_periodic_rate r face annual_coupon_rate years periods_per_year)
      periods_per_year) tol htol max_iter.toNat (-(999999 / 1000000)) 10 (by norm_num) hfl hfh
    with h | ⟨l, h, h1, h2, h3, h4, h5, h6⟩
  · left
    exact h.1
  · right
    have hw : (0 : α) ≤ (10 - -(999999 / 1000000)) / 2 ^ max_iter.toNat := by positivity
    have hlr : l < r := by
      by_contra hcon
      have := price_error_le face annual_coupon_rate years
        (bond_price_from_periodic_rate r face annual_coupon_rate years periods_per_year)
        periods_per_year r l hface hc0 hN (by linarith) (not_lt.mp hcon)
      rw [hroot] at this
      linarith
    have hrh : r ≤ h := by
      by_contra hcon
      have := price_error_lt face annual_coupon_rate years
        (bond_price_from_periodic_rate r face annual_coupon_rate years periods_per_year)
        periods_per_year h r hface hc0 hN (by linarith) (not_le.mp hcon)
      rw [hroot] at this
      linarith
    have hhalf : (10 + 999999 / 1000000 : α) / 2 ^ (max_iter.toNat + 1)
        = 1 / 2 * ((10 - -(999999 / 1000000)) / 2 ^ max_iter.toNat) := by
      rw [pow_succ]
      ring
    rw [h6, hhalf, ← h5, abs_le]
    constructor <;> linarith

/-- Raising to the power `N` and taking the real `N`-th root gives the base back. -/
theorem pow_toNat_rpow_inv (x : ℝ) (hx : 0 ≤ x) (N : ℤ) (hN : 1 ≤ N) :
    (x ^ N.toNat) ^ (1 / (N : ℝ)) = x := by
  have hcast : ((N.toNat : ℕ) : ℝ) = (N : ℝ) := by
    have h : ((N.toNat : ℕ) : ℤ) = N := Int.toNat_of_nonneg (by omega)
    exact_mod_cast h
  have hne : N.toNat ≠ 0 := by
    have h : ((N.toNat : ℕ) : ℤ) = N := Int.toNat_of_nonneg (by omega)
    omega
  rw [one_div, ← hcast]
  exact Real.pow_rpow_inv_natCast hx hne

/-- In exact arithmetic, with the real power function: for a valid bond that is zero-coupon
or has a per-period coupon of at least `1e-12`, and a rate `r` with `-0.999999 < r ≤ 10`,
the solver applied to the price at `r` with `tol = 1e-9` and `max_iter = 200` succeeds,
and the rate `p` it returns either reprices the bond within `tol` or is within
`10.999999 / 2 ^ 201` of `r`.  Neither bound survives the rounding of the `double`
program for a large face value. -/
theorem round_trip_exact (face annual_coupon_rate years r price : ℝ) (periods_per_year : ℤ)
    (hface : 0 < face) (hyears : 0 < years) (hppy : 1 ≤ periods_per_year)
    (hN : 1 ≤ c_round (years * (periods_per_year : ℝ)))
    (hcoupon : annual_coupon_rate = 0 ∨
      1 / 10 ^ 12 ≤ face * annual_coupon_rate / (periods_per_year : ℝ))
    (hr : -(999999 / 1000000) < r) (hr' : r ≤ 10)
    (hprice : price
      = bond_price_from_periodic_rate r face annual_coupon_rate years periods_per_year) :
    ∃ p : ℝ,
      ytm_bisection (fun x y : ℝ => x ^ y) face annual_coupon_rate years price
          periods_per_year (1 / 10 ^ 9) 200
        = ⟨none, fill_result p periods_per_year⟩ ∧
      (|bond_price_from_periodic_rate p face annual_coupon_rate years periods_per_year
          - price| < 1 / 10 ^ 9 ∨
        |p - r| ≤ (10 + 999999 / 1000000) / 2 ^ 201) := by
  rcases hcoupon with h0 | hc
  · subst h0
    have hpos : 0 < price := by
      rw [hprice, bond_price_of_pos _ _ _ _ _ hN]
      exact pv_reference_pos _ _ _ (by simp) hface _ (by linarith)
    obtain ⟨p, hp1, hp2⟩ := zero_coupon_exact face years price (1 / 10 ^ 9) periods_per_year
      200 hface hN hpos
    refine ⟨p, hp1, Or.inl ?_⟩
    rw [hp2, sub_self, abs_zero]
    norm_num
  · subst hprice
    obtain ⟨p, hp1, hp2⟩ := coupon_round_trip (fun x y : ℝ => x ^ y) face annual_coupon_rate
      years r periods_per_year (1 / 10 ^ 9) 200 hface hN hc (by norm_num) hr hr'
    exact ⟨p, hp1, hp2⟩

/-! ## Prices outside the bracket -/

/-- The discounted face value alone is a lower bound of the reference present value. -/
theorem pv_reference_ge_face (coupon face : α) (N : ℕ) (hc : 0 ≤ coupon) (r : α)
    (hr : -1 < r) : face / (1 + r) ^ N ≤ pv_reference coupon face r N := by
  have hb : 0 < 1 + r := by linarith
  unfold pv_reference
  have : 0 ≤ ∑ t in Finset.Icc 1 N, coupon / (1 + r) ^ t :=
    Finset.sum_nonneg (fun t _ => div_nonneg hc (pow_pos hb t).le)
  linarith

/-- Closed form of the reference present value (geometric sum) at a rate other than `0`
and `-1`. -/
theorem pv_reference_closed (coupon face r : α) (N : ℕ) (hr : r ≠ 0) (hr1 : 1 + r ≠ 0) :
    pv_reference coupon face r N
      = coupon / r * (1 - 1 / (1 + r) ^ N) + face / (1 + r) ^ N := by
  unfold pv_reference
  congr 1
  induction N with
  | zero => simp
  | succ n ih =>
    rw [Finset.sum_Icc_succ_top (by omega), ih]
    have hp : (1 + r) ^ n ≠ 0 := pow_ne_zero _ hr1
    rw [pow_succ]
    field_simp
    ring

/-- The pricing function in terms of the reference formula once the value of `N` is
known. -/
theorem bond_price_of_round (r face annual_coupon_rate years : α) (periods_per_year : ℤ)
    (n : ℕ) (hn : 1 ≤ n) (hN : c_round (years * (periods_per_year : α)) = (n : ℤ)) :
    bond_price_from_periodic_rate r face annual_coupon_rate years periods_per_year
      = pv_reference (face * annual_coupon_rate / (periods_per_year : α)) face r n := by
  rw [bond_price_of_pos _ _ _ _ _ (by omega), hN, Int.toNat_natCast]

/-- A price above the price at the lower bracket bound cannot be bracketed. -/
theorem ytm_of_price_above (powf : α → α → α)
    (face annual_coupon_rate years price : α) (periods_per_year : ℤ) (tol : α) (max_iter : ℤ)
    (hface : 0 < face)
    (hc : 1 / 10 ^ 12 ≤ face * annual_coupon_rate / (periods_per_year : α))
    (hN : 1 ≤ c_round (years * (periods_per_year : α)))
    (hprice : bond_price_from_periodic_rate (-(999999 / 1000000)) face annual_coupon_rate years
      periods_per_year < price) :
    ytm_bisection powf face annual_coupon_rate years price periods_per_year tol max_iter
      = ⟨some .UnbracketableRoot, nan_result⟩ := by
  have hc0 : 0 ≤ face * annual_coupon_rate / (periods_per_year : α) :=
    le_trans (by positivity) hc
  have hfl : price_error face annual_coupon_rate years price periods_per_year
      (-(999999 / 1000000)) < 0 := by
    unfold price_error
    linarith
  have hall : ∀ x : α, 0 < x →
      0 < price_error face annual_coupon_rate years price periods_per_year
          (-(999999 / 1000000))
        * price_error face annual_coupon_rate years price periods_per_year x := by
    intro x hx
    have := price_error_lt face annual_coupon_rate years price periods_per_year
      (-(999999 / 1000000)) x hface hc0 hN (by norm_num) (by linarith)
    exact mul_pos_of_neg_of_neg hfl (by linarith)
  have hend := expand_loop_no_sign_change
    (price_error face annual_coupon_rate years price periods_per_year) _ hall 100 10
    (price_error face annual_coupon_rate years price periods_per_year 10) (by norm_num)
    (hall 10 (by norm_num))
  rw [ytm_of_coupon powf face annual_coupon_rate years price periods_per_year tol max_iter hN
    (not_zero_coupon_of_le _ hc), if_pos hend]

/-- The value of `N` for ten years of semiannual periods. -/
theorem c_round_ten_years : c_round ((10 : α) * ((2 : ℤ) : α)) = ((20 : ℕ) : ℤ) := by
  norm_num [c_round, round_half_away, int_cast]

/-- C8, as stated, fails.  For the bond `face = 1000`, `coupon_rate = 0.08`, `years = 10`,
`periods_per_year = 2` the price `10,000,000` exceeds `face + N * coupon = 1800`, yet the
solver reports no error and returns a populated result; and for a bond with the positive
per-period coupon `1e-13` (`face = 1e-13`, coupon rate `1`, one annual period) the price
`1` exceeds `face + N * coupon`, yet the solver takes the closed form and succeeds. -/
theorem infeasible_price_counterexample :
    ((0 : ℝ) < 1000 ∧ (0 : ℝ) < 1000 * (8 / 100) / ((2 : ℤ) : ℝ) ∧
      c_round ((10 : ℝ) * ((2 : ℤ) : ℝ)) = 20 ∧
      (1000 : ℝ) + 20 * (1000 * (8 / 100) / ((2 : ℤ) : ℝ)) < 10000000 ∧
      ∃ p : ℝ, ytm_bisection (fun x y : ℝ => x ^ y) 1000 (8 / 100) 10 10000000 2
        (1 / 10 ^ 9) 200 = ⟨none, fill_result p 2⟩) ∧
    ((0 : ℝ) < 1 / 10 ^ 13 ∧ (0 : ℝ) < 1 / 10 ^ 13 * 1 / ((1 : ℤ) : ℝ) ∧
      c_round ((1 : ℝ) * ((1 : ℤ) : ℝ)) = 1 ∧
      (1 / 10 ^ 13 : ℝ) + 1 * (1 / 10 ^ 13 * 1 / ((1 : ℤ) : ℝ)) < 1 ∧
      ∃ p : ℝ, ytm_bisection (fun x y : ℝ => x ^ y) (1 / 10 ^ 13) 1 1 1 1
        (1 / 10 ^ 9) 200 = ⟨none, fill_result p 1⟩) := by
  have h20 : c_round ((10 : ℝ) * ((2 : ℤ) : ℝ)) = ((20 : ℕ) : ℤ) := c_round_ten_years
  have h1 : c_round ((1 : ℝ) * ((1 : ℤ) : ℝ)) = 1 := by norm_num [c_round, round_half_away, int_cast]
  have hlow : 0 < price_error (1000 : ℝ) (8 / 100) 10 10000000 2 (-(999999 / 1000000)) := by
    have := pv_reference_ge_face ((1000 : ℝ) * (8 / 100) / ((2 : ℤ) : ℝ)) 1000 20
      (by norm_num) (-(999999 / 1000000)) (by norm_num)
    rw [price_error, bond_price_of_round _ _ _ _ _ 20 (by norm_num) h20]
    norm_num at this ⊢
    linarith
  have hhigh : price_error (1000 : ℝ) (8 / 100) 10 10000000 2 10 < 0 := by
    have := pv_reference_anti ((1000 : ℝ) * (8 / 100) / ((2 : ℤ) : ℝ)) 1000 20
      (by norm_num) (by norm_num) 0 10 (by norm_num) (by norm_num)
    rw [price_error, bond_price_of_round _ _ _ _ _ 20 (by norm_num) h20]
    have h0 : pv_reference ((1000 : ℝ) * (8 / 100) / ((2 : ℤ) : ℝ)) 1000 0 20 = 1800 := by
      simp [pv_reference]
      norm_num
    rw [h0] at this
    linarith
  have hcoupon : ∃ p : ℝ, ytm_bisection (fun x y : ℝ => x ^ y) 1000 (8 / 100) 10 10000000 2
      (1 / 10 ^ 9) 200 = ⟨none, fill_result p 2⟩ :=
    ⟨_, ytm_of_bracket _ _ _ _ _ _ _ _ (by rw [h20]; norm_num) (by norm_num [abs_lt])
      (not_lt.mpr (mul_nonpos_of_nonneg_of_nonpos hlow.le hhigh.le))⟩
  have hzero : ∃ p : ℝ, ytm_bisection (fun x y : ℝ => x ^ y) (1 / 10 ^ 13) 1 1 1 1
      (1 / 10 ^ 9) 200 = ⟨none, fill_result p 1⟩ :=
    ⟨_, ytm_of_zero_coupon _ _ _ _ _ _ _ _ (by rw [h1]) (by norm_num [abs_lt])
      (by norm_num)⟩
  exact ⟨⟨by norm_num, by norm_num, by rw [h20]; rfl, by norm_num, hcoupon⟩,
    ⟨by norm_num, by norm_num, h1, by norm_num, hzero⟩⟩

/-- C8, amended.  For every coupon bond with `face > 0`, per-period coupon at least
`1e-12` and `N ≥ 1`, a market price higher than the price at the lower bracket bound,
`bond_price_from_periodic_rate (-0.999999)`, makes the solver fail with
`UnbracketableRoot`; in particular the price `10 ^ 130` with `face = 1000`,
`coupon_rate = 0.08`, `years = 10`, `periods_per_year = 2` yields `UnbracketableRoot`. -/
theorem infeasible_price_amended (powf : α → α → α)
    (face annual_coupon_rate years price : α) (periods_per_year : ℤ) (tol : α) (max_iter : ℤ)
    (hface : 0 < face)
    (hc : 1 / 10 ^ 12 ≤ face * annual_coupon_rate / (periods_per_year : α))
    (hN : 1 ≤ c_round (years * (periods_per_year : α)))
    (hprice : bond_price_from_periodic_rate (-(999999 / 1000000)) face annual_coupon_rate years
      periods_per_year < price) :
    (ytm_bisection powf face annual_coupon_rate years price periods_per_year tol
        max_iter).stderr = some .UnbracketableRoot ∧
    (ytm_bisection powf 1000 (8 / 100) 10 (10 ^ 130) 2 tol max_iter).stderr
      = some .UnbracketableRoot := by
  constructor
  · rw [ytm_of_price_above powf face annual_coupon_rate years price periods_per_year tol
      max_iter hface hc hN hprice]
  · rw [ytm_of_price_above powf 1000 (8 / 100) 10 (10 ^ 130) 2 tol max_iter (by norm_num)
      (by norm_num) (by rw [c_round_ten_years]; norm_num)]
    rw [bond_price_of_round _ _ _ _ _ 20 (by norm_num) c_round_ten_years,
      pv_reference_closed _ _ _ _ (by norm_num) (by norm_num)]
    norm_num

/-- Witness for the amended C8: the 8 percent, ten year, semiannual bond at the price
`10 ^ 130`. -/
theorem infeasible_price_amended_witness :
    (0 : ℚ) < 1000 ∧ 1 / 10 ^ 12 ≤ (1000 : ℚ) * (8 / 100) / ((2 : ℤ) : ℚ) ∧
    1 ≤ c_round ((10 : ℚ) * ((2 : ℤ) : ℚ)) ∧
    bond_price_from_periodic_rate (-(999999 / 1000000)) (1000 : ℚ) (8 / 100) 10 2 < 10 ^ 130 ∧
    (ytm_bisection (fun x _ : ℚ => x) 1000 (8 / 100) 10 (10 ^ 130) 2 (1 / 10 ^ 9) 200).stderr
      = some .UnbracketableRoot :=
  have hp : bond_price_from_periodic_rate (-(999999 / 1000000)) (1000 : ℚ) (8 / 100) 10 2
      < 10 ^ 130 := by
    rw [bond_price_of_round _ _ _ _ _ 20 (by norm_num) c_round_ten_years,
      pv_reference_closed _ _ _ _ (by norm_num) (by norm_num)]
    norm_num
  ⟨by norm_num, by norm_num, by rw [c_round_ten_years]; norm_num, hp,
    (infeasible_price_amended (fun x _ : ℚ => x) 1000 (8 / 100) 10 (10 ^ 130) 2 (1 / 10 ^ 9)
      200 (by norm_num) (by norm_num) (by rw [c_round_ten_years]; norm_num) hp).1⟩

/-! ## Locating the returned rate -/

/-- Localisation of the returned rate.  On the bisection branch, with a positive tolerance,
if the pricing error is at least `tol` at a rate `a` and at most `-tol` at a rate `b`, both
in the default bracket, then the solver succeeds and the rate it returns lies between `a`
and `b`, up to half the width of the last bracket. -/
theorem ytm_localised (powf : α → α → α)
    (face annual_coupon_rate years price : α) (periods_per_year : ℤ) (tol : α) (max_iter : ℤ)
    (a b : α) (hface : 0 < face)
    (hc : 1 / 10 ^ 12 ≤ face * annual_coupon_rate / (periods_per_year : α))
    (hN : 1 ≤ c_round (years * (periods_per_year : α)))
    (htol : 0 < tol) (ha : -(999999 / 1000000) ≤ a) (hab : a ≤ b) (hb : b ≤ 10)
    (hfa : tol ≤ price_error face annual_coupon_rate years price periods_per_year a)
    (hfb : price_error face annual_coupon_rate years price periods_per_year b ≤ -tol) :
    ∃ p : α,
      ytm_bisection powf face annual_coupon_rate years price periods_per_year tol max_iter
        = ⟨none, fill_result p periods_per_year⟩ ∧
      a - 1 / 2 * ((10 + 999999 / 1000000) / 2 ^ max_iter.toNat) < p ∧
      p < b + 1 / 2 * ((10 + 999999 / 1000000) / 2 ^ max_iter.toNat) := by
  have hc0 : 0 ≤ face * annual_coupon_rate / (periods_per_year : α) :=
    le_trans (by positivity) hc
  have hlow : (-1 : α) < -(999999 / 1000000) := by norm_num
  have hmono : ∀ x y : α, -1 < x → x ≤ y →
      price_error face annual_coupon_rate years price periods_per_year y
        ≤ price_error face annual_coupon_rate years price periods_per_year x :=
    fun x y hx hxy =>
      price_error_le face annual_coupon_rate years price periods_per_year x y hface hc0 hN hx hxy
  have hfl : 0 < price_error face annual_coupon_rate years price periods_per_year
      (-(999999 / 1000000)) := by
    have := hmono _ _ hlow ha
    linarith
  have hfh : price_error face annual_coupon_rate years price periods_per_year 10 ≤ 0 := by
    have := hmono b 10 (by linarith) hb
    linarith
  have hw : (0 : α) ≤ (10 + 999999 / 1000000) / 2 ^ max_iter.toNat := by positivity
  refine ⟨_, ytm_of_bracket powf face annual_coupon_rate years price periods_per_year tol
    max_iter hN (not_zero_coupon_of_le _ hc)
    (not_lt.mpr (mul_nonpos_of_nonneg_of_nonpos hfl.le hfh)), ?_⟩
  rcases bisect_rate_spec (price_error face annual_coupon_rate years price periods_per_year)
      tol htol max_iter.toNat (-(999999 / 1000000)) 10 (by norm_num) hfl hfh
    with h | ⟨l, h, h1, h2, h3, h4, h5, h6⟩
  · obtain ⟨hp, hp1, hp2⟩ := h
    rw [abs_lt] at hp
    have hap : a < bisect_rate (price_error face annual_coupon_rate years price
        periods_per_year) tol max_iter.toNat (-(999999 / 1000000)) 10
        (price_error face annual_coupon_rate years price periods_per_year
          (-(999999 / 1000000))) := by
      by_contra hcon
      have := hmono _ a (by linarith) (not_lt.mp hcon)
      linarith
    have hpb : bisect_rate (price_error face annual_coupon_rate years price
        periods_per_year) tol max_iter.toNat (-(999999 / 1000000)) 10
        (price_error face annual_coupon_rate years price periods_per_year
          (-(999999 / 1000000))) < b := by
      by_contra hcon
      have := hmono b _ (by linarith) (not_lt.mp hcon)
      linarith
    constructor <;> linarith
  · have hw' : h - l = (10 + 999999 / 1000000) / 2 ^ max_iter.toNat := by
      rw [h5]
      congr 1
      ring
    have hlb : l < b := by
      by_contra hcon
      have := hmono b l (by linarith) (not_lt.mp hcon)
      linarith
    have hah : a < h := by
      by_contra hcon
      have := hmono h a (by linarith) (not_lt.mp hcon)
      linarith
    rw [h6]
    constructor <;> linarith

/-- The 8 percent, ten year, semiannual bond at the price `950` with the default
configuration: the solver succeeds and the periodic rate lies strictly between
`0.0438039` and `0.0438042`. -/
theorem scenario_rate_bounds (powf : α → α → α) :
    ∃ p : α,
      ytm_bisection powf 1000 (8 / 100) 10 950 2 (1 / 10 ^ 9) 200
        = ⟨none, fill_result p 2⟩ ∧
      438039 / 10000000 < p ∧ p < 438042 / 10000000 := by
  have h20 : c_round ((10 : α) * ((2 : ℤ) : α)) = ((20 : ℕ) : ℤ) := c_round_ten_years
  obtain ⟨p, hp, hp1, hp2⟩ := ytm_localised powf 1000 (8 / 100) 10 950 2 (1 / 10 ^ 9) 200
    (43804 / 1000000) (438041 / 10000000) (by norm_num) (by norm_num)
    (by rw [h20]; norm_num) (by norm_num) (by norm_num) (by norm_num) (by norm_num)
    (by
      rw [price_error, bond_price_of_round _ _ _ _ _ 20 (by norm_num) h20,
        pv_reference_closed _ _ _ _ (by norm_num) (by norm_num)]
      norm_num)
    (by
      rw [price_error, bond_price_of_round _ _ _ _ _ 20 (by norm_num) h20,
        pv_reference_closed _ _ _ _ (by norm_num) (by norm_num)]
      norm_num)
  have h200 : (200 : ℤ).toNat = 200 := by decide
  rw [h200] at hp1 hp2
  have hε : (1 / 2 * ((10 + 999999 / 1000000) / 2 ^ 200) : α) < 1 / 100000000 := by
    norm_num
  exact ⟨p, hp, by linarith, by linarith⟩

/-- C10, as stated, fails.  For `face = 1000`, `coupon_rate = 0.08`, `years = 10`,
`price = 950`, `periods_per_year = 2`, `tol = 1e-9`, `max_iter = 200` the solver succeeds,
but none of the returned fields is within `0.000005` of the value given:
`periodic` is not within `0.000005` of `0.04381`, `annual_effective` not of `0.08957`,
`nominal_apr` not of `0.08762`. -/
theorem concrete_scenario_counterexample :
    ∃ p ae apr : ℝ,
      ytm_bisection (fun x y : ℝ => x ^ y) 1000 (8 / 100) 10 950 2 (1 / 10 ^ 9) 200
        = ⟨none, ⟨some p, some ae, some apr⟩⟩ ∧
      ¬ |p - 4381 / 100000| < 5 / 1000000 ∧
      ¬ |ae - 8957 / 100000| < 5 / 1000000 ∧
      ¬ |apr - 8762 / 100000| < 5 / 1000000 := by
  obtain ⟨p, hp, hp1, hp2⟩ := scenario_rate_bounds (fun x y : ℝ => x ^ y)
  refine ⟨p, (1 + p) ^ (2 : ℤ) - 1, p * ((2 : ℤ) : ℝ), hp, ?_, ?_, ?_⟩
  · rw [abs_lt]
    intro h
    linarith [h.1]
  · rw [abs_lt]
    intro h
    have hsq : (1 + p) ^ (2 : ℤ) = 1 + 2 * p + p * p := by
      rw [zpow_ofNat]
      ring
    rw [hsq] at h
    nlinarith [h.1, mul_pos (by linarith : (0 : ℝ) < p) (by linarith : (0 : ℝ) < p)]
  · rw [abs_lt]
    intro h
    have := h.1
    push_cast at this
    linarith

/-- C10, amended.  For `face = 1000`, `coupon_rate = 0.08`, `years = 10`, `price = 950`,
`periods_per_year = 2`, `tol = 1e-9`, `max_iter = 200` the solver succeeds and returns
`periodic = 0.04380`, `annual_effective = 0.08953` and `nominal_apr = 0.08761`, each
correct to the five decimal places shown (absolute error below `0.000005`). -/
theorem concrete_scenario_amended (powf : α → α → α) :
    ∃ p ae apr : α,
      ytm_bisection powf 1000 (8 / 100) 10 950 2 (1 / 10 ^ 9) 200
        = ⟨none, ⟨some p, some ae, some apr⟩⟩ ∧
      |p - 4380 / 100000| < 5 / 1000000 ∧
      |ae - 8953 / 100000| < 5 / 1000000 ∧
      |apr - 8761 / 100000| < 5 / 1000000 := by
  obtain ⟨p, hp, hp1, hp2⟩ := scenario_rate_bounds powf
  refine ⟨p, (1 + p) ^ (2 : ℤ) - 1, p * ((2 : ℤ) : α), hp, ?_, ?_, ?_⟩
  · rw [abs_lt]
    constructor <;> linarith
  · have hsq : (1 + p) ^ (2 : ℤ) = 1 + 2 * p + p * p := by
      rw [zpow_ofNat]
      ring
    have hlo : (438039 / 10000000 : α) * (438039 / 10000000) < p * p :=
      mul_lt_mul'' hp1 hp1 (by norm_num) (by norm_num)
    have hhi : p * p < (438042 / 10000000 : α) * (438042 / 10000000) :=
      mul_lt_mul'' hp2 hp2 (by linarith) (by linarith)
    rw [hsq, abs_lt]
    constructor <;> linarith
  · rw [abs_lt]
    push_cast
    constructor <;> linarith

/-! ## The sequence of brackets -/

/-- A pass that does not return hands the updated state to the remaining passes. -/
theorem bisect_rate_step (f : α → α) (tol : α) (n : ℕ) (s : α × α × α)
    (h : ¬ |f (bracket_mid s)| < tol) :
    bisect_rate f tol (n + 1) s.1 s.2.1 s.2.2
      = bisect_rate f tol n (bisect_step f s).1 (bisect_step f s).2.1 (bisect_step f s).2.2 := by
  unfold bracket_mid at h
  simp only [bisect_rate, bisect_step, if_neg h]
  split_ifs <;> rfl

/-- The rate accepted by the loop is the midpoint of the bracket held at pass `k`, where
`k` is the first pass whose midpoint meets the tolerance, or `k = n` when none does. -/
theorem bisect_rate_trace (f : α → α) (tol : α) (n : ℕ) (s : α × α × α) (k : ℕ)
    (hk : k ≤ n)
    (hbefore : ∀ j, j < k → ¬ |f (bracket_mid (bracket_after f s j))| < tol)
    (hat : k = n ∨ |f (bracket_mid (bracket_after f s k))| < tol) :
    bisect_rate f tol n s.1 s.2.1 s.2.2 = bracket_mid (bracket_after f s k) := by
  induction n generalizing s k with
  | zero =>
    have hk0 : k = 0 := by omega
    subst hk0
    simp only [bisect_rate, bracket_mid, bracket_after, Function.iterate_zero, id]
  | succ n ih =>
    cases k with
    | zero =>
      have hex : |f (bracket_mid (bracket_after f s 0))| < tol := by
        rcases hat with h | h
        · omega
        · exact h
      simp only [bracket_after, Function.iterate_zero, id, bracket_mid] at hex ⊢
      simp only [bisect_rate, if_pos hex]
    | succ k =>
      have h0 : ¬ |f (bracket_mid s)| < tol := by
        have := hbefore 0 (by omega)
        simpa only [bracket_after, Function.iterate_zero, id] using this
      rw [bisect_rate_step f tol n s h0]
      have hshift : ∀ j, bracket_after f (bisect_step f s) j = bracket_after f s (j + 1) := by
        intro j
        simp only [bracket_after, Function.iterate_succ_apply]
      rw [ih (bisect_step f s) k (by omega)
        (fun j hj => by rw [hshift]; exact hbefore (j + 1) (by omega))
        (by
          rcases hat with h | h
          · left; omega
          · right; rw [hshift]; exact h), hshift]

/-- Each pass halves the bracket: after `k` passes its width is the initial width divided
by `2 ^ k`. -/
theorem bracket_after_width (f : α → α) (s : α × α × α) (k : ℕ) :
    (bracket_after f s k).2.1 - (bracket_after f s k).1 = (s.2.1 - s.1) / 2 ^ k := by
  induction k with
  | zero => simp [bracket_after]
  | succ k ih =>
    have hstep : bracket_after f s (k + 1) = bisect_step f (bracket_after f s k) := by
      simp only [bracket_after, Function.iterate_succ_apply']
    rw [hstep, pow_succ, ← div_div, ← ih]
    simp only [bisect_step]
    split_ifs <;> simp only <;> ring

/-- On the bisection branch the solver reports no error exactly when the expansion ended
on a sign change, and its result is then the one derived from the rate accepted by the
loop started on `initial_bracket`. -/
theorem ytm_of_success (powf : α → α → α)
    (face annual_coupon_rate years price : α) (periods_per_year : ℤ) (tol : α) (max_iter : ℤ)
    (hN : 1 ≤ c_round (years * (periods_per_year : α)))
    (hc : ¬ |face * annual_coupon_rate / (periods_per_year : α)| < 1 / 10 ^ 12)
    (hbr : (ytm_bisection powf face annual_coupon_rate years price periods_per_year tol
      max_iter).stderr = none) :
    ytm_bisection powf face annual_coupon_rate years price periods_per_year tol max_iter
      = ⟨none, fill_result
          (bisect_rate (price_error face annual_coupon_rate years price periods_per_year) tol
            max_iter.toNat
            (initial_bracket face annual_coupon_rate years price periods_per_year).1
            (initial_bracket face annual_coupon_rate years price periods_per_year).2.1
            (initial_bracket face annual_coupon_rate years price periods_per_year).2.2)
          periods_per_year⟩ := by
  rw [ytm_of_coupon powf face annual_coupon_rate years price periods_per_year tol max_iter hN
    hc] at hbr ⊢
  split_ifs at hbr ⊢ with h
  rfl

/-! ## Early exit and exhaustion of the bisection loop -/

/-- The state on entry of the loop, in terms of the pricing error. -/
theorem initial_bracket_eq (face annual_coupon_rate years price : α) (periods_per_year : ℤ) :
    initial_bracket face annual_coupon_rate years price periods_per_year
      = (-(999999 / 1000000),
          (expand_loop (price_error face annual_coupon_rate years price periods_per_year)
            (price_error face annual_coupon_rate years price periods_per_year
              (-(999999 / 1000000))) 100 10
            (price_error face annual_coupon_rate years price periods_per_year 10)).1,
          price_error face annual_coupon_rate years price periods_per_year
            (-(999999 / 1000000))) := rfl

/-- The price of the unit bond: face `1`, coupon rate `1`, a single annual period. -/
theorem unit_bond_price (r : α) :
    bond_price_from_periodic_rate r (1 : α) 1 1 1 = 1 / (1 + r) + 1 / (1 + r) := by
  have h1 : c_round ((1 : α) * ((1 : ℤ) : α)) = 1 := by norm_num [c_round, round_half_away, int_cast]
  rw [bond_price_of_pos _ _ _ _ _ (by rw [h1]), h1]
  simp [pv_reference]

/-- The unit bond has one period. -/
theorem unit_bond_periods : (1 : ℤ) ≤ c_round ((1 : α) * ((1 : ℤ) : α)) := by
  norm_num [c_round, round_half_away, int_cast]

/-- The unit bond is a coupon bond for the solver. -/
theorem unit_bond_coupon : ¬ |(1 : α) * 1 / ((1 : ℤ) : α)| < 1 / 10 ^ 12 := by
  norm_num [abs_lt]

/-- The unit bond at the price `1`: the default bracket shows a sign change. -/
theorem unit_bond_sign :
    ¬ price_error (1 : α) 1 1 1 1 (-(999999 / 1000000)) * price_error (1 : α) 1 1 1 1 10 > 0 := by
  simp only [price_error, unit_bond_price]
  norm_num

/-- The unit bond at the price `1`: the solver enters the loop with the default bracket. -/
theorem unit_bond_initial :
    initial_bracket (1 : α) 1 1 1 1
      = (-(999999 / 1000000), 10, price_error (1 : α) 1 1 1 1 (-(999999 / 1000000))) := by
  rw [initial_bracket_eq, expand_loop_of_not_pos _ _ _ _ _ unit_bond_sign]

/-- The unit bond at the price `1`: the solver reports no error. -/
theorem unit_bond_success (powf : α → α → α) (tol : α) (max_iter : ℤ) :
    (ytm_bisection powf (1 : α) 1 1 1 1 tol max_iter).stderr = none := by
  rw [ytm_of_bracket powf 1 1 1 1 1 tol max_iter unit_bond_periods unit_bond_coupon
    unit_bond_sign]

/-- C11. Whenever the solver returns from inside the bisection loop, that is, on the
bisection branch with a bracket found, when some midpoint of the bisection sequence meets
the tolerance within `max_iter` passes: the returned periodic rate is the midpoint of
the bracket held at some pass `k < max_iter`, its pricing error is below `tol`, and no
midpoint of an earlier pass met the tolerance. -/
theorem early_exit_first_midpoint (powf : α → α → α)
    (face annual_coupon_rate years price : α) (periods_per_year : ℤ) (tol : α) (max_iter : ℤ)
    (hN : 1 ≤ c_round (years * (periods_per_year : α)))
    (hc : ¬ |face * annual_coupon_rate / (periods_per_year : α)| < 1 / 10 ^ 12)
    (hbr : (ytm_bisection powf face annual_coupon_rate years price periods_per_year tol
      max_iter).stderr = none)
    (hexit : ∃ k, k < max_iter.toNat ∧
      |bond_price_from_periodic_rate
          (bracket_mid (bracket_after
            (price_error face annual_coupon_rate years price periods_per_year)
            (initial_bracket face annual_coupon_rate years price periods_per_year) k))
          face annual_coupon_rate years periods_per_year - price| < tol) :
    ∃ k, k < max_iter.toNat ∧
      ytm_bisection powf face annual_coupon_rate years price periods_per_year tol max_iter
        = ⟨none, fill_result
            (bracket_mid (bracket_after
              (price_error face annual_coupon_rate years price periods_per_year)
              (initial_bracket face annual_coupon_rate years price periods_per_year) k))
            periods_per_year⟩ ∧
      |bond_price_from_periodic_rate
          (bracket_mid (bracket_after
            (price_error face annual_coupon_rate years price periods_per_year)
            (initial_bracket face annual_coupon_rate years price periods_per_year) k))
          face annual_coupon_rate years periods_per_year - price| < tol ∧
      ∀ j, j < k →
        ¬ |bond_price_from_periodic_rate
            (bracket_mid (bracket_after
              (price_error face annual_coupon_rate years price periods_per_year)
              (initial_bracket face annual_coupon_rate years price periods_per_year) j))
            face annual_coupon_rate years periods_per_year - price| < tol := by
  classical
  have hfirst := Nat.find_spec hexit
  have hmin : ∀ j, j < Nat.find hexit →
      ¬ |bond_price_from_periodic_rate
          (bracket_mid (bracket_after
            (price_error face annual_coupon_rate years price periods_per_year)
            (initial_bracket face annual_coupon_rate years price periods_per_year) j))
          face annual_coupon_rate years periods_per_year - price| < tol := by
    intro j hj hcon
    exact Nat.find_min hexit hj ⟨by omega, hcon⟩
  refine ⟨Nat.find hexit, hfirst.1, ?_, hfirst.2, hmin⟩
  rw [ytm_of_success powf face annual_coupon_rate years price periods_per_year tol max_iter hN
    hc hbr,
    bisect_rate_trace (price_error face annual_coupon_rate years price periods_per_year) tol
      max_iter.toNat (initial_bracket face annual_coupon_rate years price periods_per_year)
      (Nat.find hexit) hfirst.1.le hmin (Or.inr hfirst.2)]

/-- Witness for C11: the unit bond at the price `1` with `tol = 1`; the first midpoint
`4.5000005` already meets the tolerance. -/
theorem early_exit_first_midpoint_witness :
    ∃ k, k < (200 : ℤ).toNat ∧
      ytm_bisection (fun x _ : ℚ => x) 1 1 1 1 1 1 200
        = ⟨none, fill_result
            (bracket_mid (bracket_after (price_error (1 : ℚ) 1 1 1 1)
              (initial_bracket (1 : ℚ) 1 1 1 1) k)) 1⟩ ∧
      |bond_price_from_periodic_rate
          (bracket_mid (bracket_after (price_error (1 : ℚ) 1 1 1 1)
            (initial_bracket (1 : ℚ) 1 1 1 1) k)) 1 1 1 1 - 1| < 1 ∧
      ∀ j, j < k →
        ¬ |bond_price_from_periodic_rate
            (bracket_mid (bracket_after (price_error (1 : ℚ) 1 1 1 1)
              (initial_bracket (1 : ℚ) 1 1 1 1) j)) 1 1 1 1 - 1| < 1 :=
  early_exit_first_midpoint (fun x _ : ℚ => x) 1 1 1 1 1 1 200 unit_bond_periods
    unit_bond_coupon (unit_bond_success _ _ _)
    ⟨0, by decide, by
      rw [bracket_after, Function.iterate_zero, id, unit_bond_initial, bracket_mid,
        unit_bond_price, abs_lt]
      constructor <;> norm_num⟩

/-- If bracketing succeeds and no midpoint meets the tolerance within `max_iter` passes, the
solver reports no error and returns the midpoint of the final bracket (for `max_iter ≤ 0`
the midpoint of the initial bracket).  In exact arithmetic that bracket has width
`(high0 - low0) / 2 ^ max_iter`, with `low0 = -0.999999` and `high0` the upper bound left
by the expansion; in the `double` program the halving stops at neighbouring doubles. -/
theorem exhaustion_midpoint (powf : α → α → α)
    (face annual_coupon_rate years price : α) (periods_per_year : ℤ) (tol : α) (max_iter : ℤ)
    (hN : 1 ≤ c_round (years * (periods_per_year : α)))
    (hc : ¬ |face * annual_coupon_rate / (periods_per_year : α)| < 1 / 10 ^ 12)
    (hbr : (ytm_bisection powf face annual_coupon_rate years price periods_per_year tol
      max_iter).stderr = none)
    (hno : ∀ k, k < max_iter.toNat →
      ¬ |bond_price_from_periodic_rate
          (bracket_mid (bracket_after
            (price_error face annual_coupon_rate years price periods_per_year)
            (initial_bracket face annual_coupon_rate years price periods_per_year) k))
          face annual_coupon_rate years periods_per_year - price| < tol) :
    ytm_bisection powf face annual_coupon_rate years price periods_per_year tol max_iter
      = ⟨none, fill_result
          (bracket_mid (bracket_after
            (price_error face annual_coupon_rate years price periods_per_year)
            (initial_bracket face annual_coupon_rate years price periods_per_year)
            max_iter.toNat))
          periods_per_year⟩ ∧
    (bracket_after (price_error face annual_coupon_rate years price periods_per_year)
        (initial_bracket face annual_coupon_rate years price periods_per_year)
        max_iter.toNat).2.1
      - (bracket_after (price_error face annual_coupon_rate years price periods_per_year)
        (initial_bracket face annual_coupon_rate years price periods_per_year)
        max_iter.toNat).1
      = ((initial_bracket face annual_coupon_rate years price periods_per_year).2.1
          - -(999999 / 1000000)) / 2 ^ max_iter.toNat ∧
    (max_iter ≤ 0 →
      ytm_bisection powf face annual_coupon_rate years price periods_per_year tol max_iter
        = ⟨none, fill_result
            (1 / 2 * (-(999999 / 1000000)
              + (initial_bracket face annual_coupon_rate years price periods_per_year).2.1))
            periods_per_year⟩) := by
  have hres : ytm_bisection powf face annual_coupon_rate years price periods_per_year tol
      max_iter
      = ⟨none, fill_result
          (bracket_mid (bracket_after
            (price_error face annual_coupon_rate years price periods_per_year)
            (initial_bracket face annual_coupon_rate years price periods_per_year)
            max_iter.toNat))
          periods_per_year⟩ := by
    rw [ytm_of_success powf face annual_coupon_rate years price periods_per_year tol max_iter
      hN hc hbr,
      bisect_rate_trace (price_error face annual_coupon_rate years price periods_per_year) tol
        max_iter.toNat (initial_bracket face annual_coupon_rate years price periods_per_year)
        max_iter.toNat le_rfl hno (Or.inl rfl)]
  refine ⟨hres, ?_, ?_⟩
  · rw [bracket_after_width]
    rfl
  · intro hmax
    have h0 : max_iter.toNat = 0 := Int.toNat_eq_zero.mpr hmax
    rw [hres, h0]
    rfl

/-! ## Bracket expansion -/

/-- The expansion loop stops at the first doubling count `k` at which the sign test fails,
or at `k = n` when it never does; it returns `high * 2 ^ k` and the pricing error there. -/
theorem expand_loop_trace (f : α → α) (f_low : α) (n : ℕ) (high : α) (k : ℕ) (hk : k ≤ n)
    (hbefore : ∀ j, j < k → f_low * f (high * 2 ^ j) > 0)
    (hat : k = n ∨ ¬ f_low * f (high * 2 ^ k) > 0) :
    expand_loop f f_low n high (f high) = (high * 2 ^ k, f (high * 2 ^ k)) := by
  induction n generalizing high k with
  | zero =>
    have hk0 : k = 0 := by omega
    subst hk0
    simp only [expand_loop, pow_zero, mul_one]
  | succ n ih =>
    cases k with
    | zero =>
      have hstop : ¬ f_low * f high > 0 := by
        rcases hat with h | h
        · omega
        · simpa only [pow_zero, mul_one] using h
      simp only [expand_loop, if_neg hstop, pow_zero, mul_one]
    | succ k =>
      have hgo : f_low * f high > 0 := by
        simpa only [pow_zero, mul_one] using hbefore 0 (by omega)
      have hshift : ∀ j, high * 2 * 2 ^ j = high * 2 ^ (j + 1) := by
        intro j
        rw [pow_succ]
        ring
      simp only [expand_loop, if_pos hgo]
      rw [ih (high * 2) k (by omega)
        (fun j hj => by rw [hshift]; exact hbefore (j + 1) (by omega))
        (by
          rcases hat with h | h
          · left; omega
          · right; rw [hshift]; exact h), hshift]

/-- C13. On the bisection branch (`N ≥ 1`, `|coupon| ≥ 1e-12`), with `f` the pricing
error: the loop is entered with `low = -0.999999` untouched by the expansion, and with
`high = 10 * 2 ^ k` for the least `k` in `0..100` with `f (low) * f (10 * 2 ^ k) ≤ 0`;
the solver fails with `UnbracketableRoot` exactly when `f (low) * f (10 * 2 ^ k) > 0` for
every `k` in `0..100`. -/
theorem bracket_expansion (powf : α → α → α)
    (face annual_coupon_rate years price : α) (periods_per_year : ℤ) (tol : α) (max_iter : ℤ)
    (hN : 1 ≤ c_round (years * (periods_per_year : α)))
    (hc : ¬ |face * annual_coupon_rate / (periods_per_year : α)| < 1 / 10 ^ 12) :
    (initial_bracket face annual_coupon_rate years price periods_per_year).1
      = -(999999 / 1000000) ∧
    (∀ k, k ≤ 100 →
      price_error face annual_coupon_rate years price periods_per_year (-(999999 / 1000000))
        * price_error face annual_coupon_rate years price periods_per_year (10 * 2 ^ k) ≤ 0 →
      (∀ j, j < k →
        price_error face annual_coupon_rate years price periods_per_year
            (-(999999 / 1000000))
          * price_error face annual_coupon_rate years price periods_per_year (10 * 2 ^ j)
          > 0) →
      (initial_bracket face annual_coupon_rate years price periods_per_year).2.1 = 10 * 2 ^ k ∧
      ytm_bisection powf face annual_coupon_rate years price periods_per_year tol max_iter
        = ⟨none, fill_result
            (bisect_rate (price_error face annual_coupon_rate years price periods_per_year)
              tol max_iter.toNat (-(999999 / 1000000)) (10 * 2 ^ k)
              (price_error face annual_coupon_rate years price periods_per_year
                (-(999999 / 1000000)))) periods_per_year⟩) ∧
    ((ytm_bisection powf face annual_coupon_rate years price periods_per_year tol
        max_iter).stderr = some .UnbracketableRoot
      ↔ ∀ k, k ≤ 100 →
        price_error face annual_coupon_rate years price periods_per_year
            (-(999999 / 1000000))
          * price_error face annual_coupon_rate years price periods_per_year (10 * 2 ^ k)
          > 0) := by
  refine ⟨rfl, ?_, ?_⟩
  · intro k hk hstop hbefore
    have hexp := expand_loop_trace
      (price_error face annual_coupon_rate years price periods_per_year)
      (price_error face annual_coupon_rate years price periods_per_year (-(999999 / 1000000)))
      100 10 k hk hbefore (Or.inr (not_lt.mpr hstop))
    constructor
    · rw [initial_bracket_eq, hexp]
    · rw [ytm_of_coupon powf face annual_coupon_rate years price periods_per_year tol max_iter
        hN hc, hexp, if_neg (not_lt.mpr hstop)]
  · rw [ytm_of_coupon powf face annual_coupon_rate years price periods_per_year tol max_iter
      hN hc]
    constructor
    · intro h
      by_contra hcon
      push_neg at hcon
      classical
      have hex : ∃ k, k ≤ 100 ∧
          price_error face annual_coupon_rate years price periods_per_year
              (-(999999 / 1000000))
            * price_error face annual_coupon_rate years price periods_per_year (10 * 2 ^ k)
            ≤ 0 := hcon
      have hspec := Nat.find_spec hex
      have hmin : ∀ j, j < Nat.find hex →
          price_error face annual_coupon_rate years price periods_per_year
              (-(999999 / 1000000))
            * price_error face annual_coupon_rate years price periods_per_year (10 * 2 ^ j)
            > 0 := by
        intro j hj
        by_contra hle
        exact Nat.find_min hex hj ⟨by omega, not_lt.mp hle⟩
      have hexp := expand_loop_trace
        (price_error face annual_coupon_rate years price periods_per_year)
        (price_error face annual_coupon_rate years price periods_per_year
          (-(999999 / 1000000)))
        100 10 (Nat.find hex) hspec.1 hmin (Or.inr (not_lt.mpr hspec.2))
      rw [hexp, if_neg (not_lt.mpr hspec.2)] at h
      simp at h
    · intro hall
      have hexp := expand_loop_trace
        (price_error face annual_coupon_rate years price periods_per_year)
        (price_error face annual_coupon_rate years price periods_per_year
          (-(999999 / 1000000)))
        100 10 100 le_rfl (fun j hj => hall j (by omega)) (Or.inl rfl)
      rw [hexp, if_pos (hall 100 le_rfl)]

/-- Witness for C13: the unit bond at the price `1`. -/
theorem bracket_expansion_witness :
    (1 : ℤ) ≤ c_round ((1 : ℚ) * ((1 : ℤ) : ℚ)) ∧
    ¬ |(1 : ℚ) * 1 / ((1 : ℤ) : ℚ)| < 1 / 10 ^ 12 ∧
    ((ytm_bisection (fun x _ : ℚ => x) 1 1 1 1 1 (1 / 10 ^ 9) 200).stderr
        = some .UnbracketableRoot
      ↔ ∀ k, k ≤ 100 →
        price_error (1 : ℚ) 1 1 1 1 (-(999999 / 1000000))
          * price_error (1 : ℚ) 1 1 1 1 (10 * 2 ^ k) > 0) :=
  ⟨unit_bond_periods, unit_bond_coupon,
    (bracket_expansion (fun x _ : ℚ => x) 1 1 1 1 1 (1 / 10 ^ 9) 200 unit_bond_periods
      unit_bond_coupon).2.2⟩

/-! ## The bracket whose lower end is the root -/

/-- The rate accepted by the loop lies in the bracket the loop was started on. -/
theorem bisect_rate_mem (f : α → α) (tol : α) (n : ℕ) (low high f_low : α)
    (hlh : low ≤ high) :
    low ≤ bisect_rate f tol n low high f_low ∧ bisect_rate f tol n low high f_low ≤ high := by
  induction n generalizing low high f_low with
  | zero =>
    simp only [bisect_rate]
    constructor <;> linarith
  | succ n ih =>
    have hm₁ : low ≤ 1 / 2 * (low + high) := by linarith
    have hm₂ : 1 / 2 * (low + high) ≤ high := by linarith
    simp only [bisect_rate]
    split_ifs
    · exact ⟨hm₁, hm₂⟩
    · have := ih low (1 / 2 * (low + high)) f_low hm₁
      exact ⟨this.1, le_trans this.2 hm₂⟩
    · have := ih (1 / 2 * (low + high)) high (f (1 / 2 * (low + high))) hm₂
      exact ⟨le_trans hm₁ this.1, this.2⟩

/-- C14 at its failing input.  The unit bond (`face = 1`, coupon rate `1`, one annual
period) at the price `2000000`, which is its price at the lower bracket bound
`-0.999999`, with `tol = 1e-9` and `max_iter = 200`.  Bracketing succeeds with the default
bracket and `f_low = 0`; the first midpoint `4.5000005` does not meet the tolerance; the
bracket held after the first pass is `[4.5000005, 10]`; no rate in that bracket reprices
the bond to the price; and the rate the solver returns lies in that bracket. -/
theorem bracket_invariant_failing_input :
    bond_price_from_periodic_rate (-(999999 / 1000000)) (1 : ℚ) 1 1 1 = 2000000 ∧
    (ytm_bisection (fun x _ : ℚ => x) 1 1 1 2000000 1 (1 / 10 ^ 9) 200).stderr = none ∧
    initial_bracket (1 : ℚ) 1 1 2000000 1 = (-(999999 / 1000000), 10, 0) ∧
    ¬ |bond_price_from_periodic_rate (bracket_mid (initial_bracket (1 : ℚ) 1 1 2000000 1))
        1 1 1 1 - 2000000| < 1 / 10 ^ 9 ∧
    ((bracket_after (price_error (1 : ℚ) 1 1 2000000 1)
        (initial_bracket (1 : ℚ) 1 1 2000000 1) 1).1 = 9000001 / 2000000 ∧
      (bracket_after (price_error (1 : ℚ) 1 1 2000000 1)
        (initial_bracket (1 : ℚ) 1 1 2000000 1) 1).2.1 = 10) ∧
    (∀ r : ℚ, 9000001 / 2000000 ≤ r → r ≤ 10 →
      bond_price_from_periodic_rate r 1 1 1 1 ≠ 2000000) ∧
    ∃ p : ℚ,
      ytm_bisection (fun x _ : ℚ => x) 1 1 1 2000000 1 (1 / 10 ^ 9) 200
        = ⟨none, fill_result p 1⟩ ∧
      9000001 / 2000000 ≤ p ∧ p ≤ 10 := by
  have hlow : price_error (1 : ℚ) 1 1 2000000 1 (-(999999 / 1000000)) = 0 := by
    simp only [price_error, unit_bond_price]
    norm_num
  have hsign : ¬ price_error (1 : ℚ) 1 1 2000000 1 (-(999999 / 1000000))
      * price_error (1 : ℚ) 1 1 2000000 1 10 > 0 := by
    rw [hlow, zero_mul]
    exact lt_irrefl 0
  have hinit : initial_bracket (1 : ℚ) 1 1 2000000 1 = (-(999999 / 1000000), 10, 0) := by
    rw [initial_bracket_eq, expand_loop_of_not_pos _ _ _ _ _ hsign, hlow]
  have hmid : bracket_mid (initial_bracket (1 : ℚ) 1 1 2000000 1) = 9000001 / 2000000 := by
    rw [hinit, bracket_mid]
    norm_num
  have hnoexit : ¬ |price_error (1 : ℚ) 1 1 2000000 1
      (bracket_mid (initial_bracket (1 : ℚ) 1 1 2000000 1))| < 1 / 10 ^ 9 := by
    rw [hmid, price_error, unit_bond_price, abs_lt]
    norm_num
  have hstep : bisect_step (price_error (1 : ℚ) 1 1 2000000 1)
      (initial_bracket (1 : ℚ) 1 1 2000000 1)
      = (9000001 / 2000000, 10, price_error (1 : ℚ) 1 1 2000000 1 (9000001 / 2000000)) := by
    rw [hinit]
    simp only [bisect_step, zero_mul, lt_self_iff_false, if_false]
    norm_num
  have hafter : bracket_after (price_error (1 : ℚ) 1 1 2000000 1)
      (initial_bracket (1 : ℚ) 1 1 2000000 1) 1
      = (9000001 / 2000000, 10, price_error (1 : ℚ) 1 1 2000000 1 (9000001 / 2000000)) := by
    rw [bracket_after, Function.iterate_one, hstep]
  have hres := ytm_of_bracket (fun x _ : ℚ => x) 1 1 1 2000000 1 (1 / 10 ^ 9) 200
    unit_bond_periods unit_bond_coupon hsign
  refine ⟨by rw [unit_bond_price]; norm_num, by rw [hres], hinit, hnoexit,
    ⟨by rw [hafter], by rw [hafter]⟩, ?_, ?_⟩
  · intro r hr₁ hr₂
    rw [unit_bond_price]
    have h1 : 1 / (1 + r) ≤ 1 := by
      rw [div_le_one (by linarith)]
      linarith
    intro hcon
    linarith
  · have h200 : (200 : ℤ).toNat = 199 + 1 := by decide
    have hrun := bisect_rate_step (price_error (1 : ℚ) 1 1 2000000 1) (1 / 10 ^ 9) 199
      (initial_bracket (1 : ℚ) 1 1 2000000 1) hnoexit
    rw [hstep] at hrun
    rw [hinit] at hrun
    rw [hlow, h200, hrun] at hres
    exact ⟨_, hres, bisect_rate_mem _ _ _ _ _ _ (by norm_num)⟩

/-! ## Prices outside the reachable range -/

/-- A non-positive price cannot be bracketed on a coupon bond. -/
theorem ytm_of_price_nonpos (powf : α → α → α)
    (face annual_coupon_rate years price : α) (periods_per_year : ℤ) (tol : α) (max_iter : ℤ)
    (hface : 0 < face)
    (hc : 1 / 10 ^ 12 ≤ face * annual_coupon_rate / (periods_per_year : α))
    (hN : 1 ≤ c_round (years * (periods_per_year : α)))
    (hprice : price ≤ 0) :
    ytm_bisection powf face annual_coupon_rate years price periods_per_year tol max_iter
      = ⟨some .UnbracketableRoot, nan_result⟩ := by
  have hc0 : 0 ≤ face * annual_coupon_rate / (periods_per_year : α) :=
    le_trans (by positivity) hc
  have hpos : ∀ x : α, -1 < x →
      0 < price_error face annual_coupon_rate years price periods_per_year x := by
    intro x hx
    rw [price_error, bond_price_of_pos _ _ _ _ _ hN]
    have := pv_reference_pos (face * annual_coupon_rate / (periods_per_year : α)) face
      (c_round (years * (periods_per_year : α))).toNat hc0 hface x hx
    linarith
  have hall : ∀ x : α, 0 < x →
      0 < price_error face annual_coupon_rate years price periods_per_year
          (-(999999 / 1000000))
        * price_error face annual_coupon_rate years price periods_per_year x :=
    fun x hx => mul_pos (hpos _ (by norm_num)) (hpos x (by linarith))
  have hend := expand_loop_no_sign_change
    (price_error face annual_coupon_rate years price periods_per_year) _ hall 100 10
    (price_error face annual_coupon_rate years price periods_per_year 10) (by norm_num)
    (hall 10 (by norm_num))
  rw [ytm_of_coupon powf face annual_coupon_rate years price periods_per_year tol max_iter hN
    (not_zero_coupon_of_le _ hc), if_pos hend]

/-- C16. For every bond with `face > 0`, per-period coupon at least `1e-12` and `N ≥ 1`,
the solver fails with `UnbracketableRoot`, leaving the result unpopulated, whenever
`price ≤ 0` or `price > bond_price_from_periodic_rate (-0.999999)`. -/
theorem out_of_range_price (powf : α → α → α)
    (face annual_coupon_rate years price : α) (periods_per_year : ℤ) (tol : α) (max_iter : ℤ)
    (hface : 0 < face)
    (hc : 1 / 10 ^ 12 ≤ face * annual_coupon_rate / (periods_per_year : α))
    (hN : 1 ≤ c_round (years * (periods_per_year : α)))
    (hprice : price ≤ 0 ∨
      bond_price_from_periodic_rate (-(999999 / 1000000)) face annual_coupon_rate years
        periods_per_year < price) :
    ytm_bisection powf face annual_coupon_rate years price periods_per_year tol max_iter
      = ⟨some .UnbracketableRoot, ⟨none, none, none⟩⟩ := by
  rcases hprice with h | h
  · exact ytm_of_price_nonpos powf face annual_coupon_rate years price periods_per_year tol
      max_iter hface hc hN h
  · exact ytm_of_price_above powf face annual_coupon_rate years price periods_per_year tol
      max_iter hface hc hN h

/-- Witness for C16: the unit bond at the price `-5`. -/
theorem out_of_range_price_witness :
    (0 : ℚ) < 1 ∧ 1 / 10 ^ 12 ≤ (1 : ℚ) * 1 / ((1 : ℤ) : ℚ) ∧
    (1 : ℤ) ≤ c_round ((1 : ℚ) * ((1 : ℤ) : ℚ)) ∧
    ((-5 : ℚ) ≤ 0 ∨ bond_price_from_periodic_rate (-(999999 / 1000000)) (1 : ℚ) 1 1 1 < -5) ∧
    ytm_bisection (fun x _ : ℚ => x) 1 1 1 (-5) 1 (1 / 10 ^ 9) 200
      = ⟨some .UnbracketableRoot, ⟨none, none, none⟩⟩ :=
  ⟨by norm_num, by norm_num, unit_bond_periods, Or.inl (by norm_num),
    out_of_range_price (fun x _ : ℚ => x) 1 1 1 (-5) 1 (1 / 10 ^ 9) 200 (by norm_num)
      (by norm_num) unit_bond_periods (Or.inl (by norm_num))⟩

/-! ## Further identities -/

/-- A successful outcome carries the result derived from a single rate. -/
theorem ytm_success_fill (powf : α → α → α) (face annual_coupon_rate years price : α)
    (periods_per_year : ℤ) (tol : α) (max_iter : ℤ)
    (h : (ytm_bisection powf face annual_coupon_rate years price periods_per_year tol
      max_iter).stderr = none) :
    ∃ p : α,
      (ytm_bisection powf face annual_coupon_rate years price periods_per_year tol
        max_iter).res = fill_result p periods_per_year := by
  simp only [ytm_bisection] at h ⊢
  split_ifs at h ⊢
  · exact ⟨_, rfl⟩
  · exact ⟨_, bisect_loop_eq_fill _ _ _ _ _ _ _⟩

/-- Bernoulli's inequality for the annualisation: compounding over `m ≥ 1` periods is at
least the simple multiple. -/
theorem compound_ge_simple (p : α) (m : ℤ) (hm : 1 ≤ m) (hp : -1 < p) :
    p * (m : α) ≤ (1 + p) ^ m - 1 := by
  obtain ⟨n, rfl⟩ := Int.eq_ofNat_of_zero_le (by omega : 0 ≤ m)
  have := one_add_mul_le_pow (by linarith : (-2 : α) ≤ p) n
  rw [zpow_natCast]
  push_cast
  linarith

/-- In exact arithmetic: for a successful result with `periods_per_year ≥ 1` and
`periodic > -1` the fields satisfy `annual_effective ≥ nominal_apr`, with equality when
`periods_per_year = 1`.  In the `double` program `1 + periodic` is rounded, and the order
can be reversed in the last place. -/
theorem effective_ge_nominal (powf : α → α → α) (face annual_coupon_rate years price : α)
    (periods_per_year : ℤ) (tol : α) (max_iter : ℤ) (p ae apr : α)
    (hres : ytm_bisection powf face annual_coupon_rate years price periods_per_year tol
      max_iter = ⟨none, ⟨some p, some ae, some apr⟩⟩)
    (hppy : 1 ≤ periods_per_year) (hp : -1 < p) :
    ae ≥ apr ∧
    ae = (1 + p) ^ periods_per_year - 1 ∧ apr = p * (periods_per_year : α) ∧
    (1 + p) ^ periods_per_year - 1 ≥ p * (periods_per_year : α) ∧
    (periods_per_year = 1 → ae = apr) := by
  obtain ⟨q, hq⟩ := ytm_success_fill powf face annual_coupon_rate years price periods_per_year
    tol max_iter (by rw [hres])
  rw [hres] at hq
  simp only [fill_result, YTMResult.mk.injEq, Option.some.injEq] at hq
  obtain ⟨hpq, hae, hapr⟩ := hq
  subst hpq
  have hb := compound_ge_simple p periods_per_year hppy hp
  refine ⟨by rw [hae, hapr]; exact hb, hae, hapr, hb, ?_⟩
  intro h1
  rw [hae, hapr, h1]
  simp

/-- In exact arithmetic: for a bond with `N ≥ 1` whose per-period coupon rate
`c = annual_coupon_rate / periods_per_year` is above `-1`, discounting at the coupon rate
prices the bond at par.  The `double` program returns `face` up to rounding. -/
theorem par_pricing (face annual_coupon_rate years : α) (periods_per_year : ℤ)
    (hN : 1 ≤ c_round (years * (periods_per_year : α)))
    (hc : -1 < annual_coupon_rate / (periods_per_year : α)) :
    bond_price_from_periodic_rate (annual_coupon_rate / (periods_per_year : α)) face
      annual_coupon_rate years periods_per_year = face := by
  rw [bond_price_of_pos _ _ _ _ _ hN, mul_div_assoc]
  generalize annual_coupon_rate / (periods_per_year : α) = c at hc ⊢
  generalize (c_round (years * (periods_per_year : α))).toNat = n
  have h1 : 1 + c ≠ 0 := by
    have : 0 < 1 + c := by linarith
    exact this.ne.symm
  by_cases h0 : c = 0
  · rw [h0]
    simp [pv_reference]
  · rw [pv_reference_closed _ _ _ _ h0 h1]
    have hp : (1 + c) ^ n ≠ 0 := pow_ne_zero _ h1
    field_simp
    ring

/-! ## Existence of the yield over the reals -/

/-- The reference present value is continuous in the rate on an interval above `-1`. -/
theorem pv_reference_continuousOn (coupon face : ℝ) (N : ℕ) (a b : ℝ) (ha : -1 < a) :
    ContinuousOn (fun r : ℝ => pv_reference coupon face r N) (Set.Icc a b) := by
  have hne : ∀ (t : ℕ) (r : ℝ), r ∈ Set.Icc a b → (1 + r) ^ t ≠ 0 := by
    intro t r hr
    have : 0 < 1 + r := by linarith [hr.1]
    exact pow_ne_zero _ this.ne.symm
  have hpow : ∀ t : ℕ, ContinuousOn (fun r : ℝ => (1 + r) ^ t) (Set.Icc a b) :=
    fun t => ((continuous_const.add continuous_id).pow t).continuousOn
  unfold pv_reference
  apply ContinuousOn.add
  · apply continuousOn_finset_sum
    intro t _
    exact ContinuousOn.div continuousOn_const (hpow t) (hne t)
  · exact ContinuousOn.div continuousOn_const (hpow N) (hne N)

/-- A price strictly between the prices at the two ends of the default bracket is the
price at exactly one rate strictly inside the bracket. -/
theorem exists_unique_yield (face annual_coupon_rate years price : ℝ) (periods_per_year : ℤ)
    (hface : 0 < face)
    (hc : 0 ≤ face * annual_coupon_rate / (periods_per_year : ℝ))
    (hN : 1 ≤ c_round (years * (periods_per_year : ℝ)))
    (hlo : bond_price_from_periodic_rate 10 face annual_coupon_rate years periods_per_year
      < price)
    (hhi : price < bond_price_from_periodic_rate (-(999999 / 1000000)) face
      annual_coupon_rate years periods_per_year) :
    ∃ r₀ : ℝ, (-(999999 / 1000000) < r₀ ∧ r₀ < 10 ∧
        bond_price_from_periodic_rate r₀ face annual_coupon_rate years periods_per_year
          = price) ∧
      ∀ r : ℝ, -(999999 / 1000000) < r → r < 10 →
        bond_price_from_periodic_rate r face annual_coupon_rate years periods_per_year
          = price → r = r₀ := by
  have hcont := pv_reference_continuousOn (face * annual_coupon_rate / (periods_per_year : ℝ))
    face (c_round (years * (periods_per_year : ℝ))).toNat (-(999999 / 1000000)) 10
    (by norm_num)
  have hivt := intermediate_value_Icc' (by norm_num : (-(999999 / 1000000) : ℝ) ≤ 10) hcont
  rw [bond_price_of_pos _ _ _ _ _ hN] at hlo hhi
  obtain ⟨r₀, hr₀, hval⟩ := hivt ⟨hlo.le, hhi.le⟩
  simp only at hval
  have hne₁ : r₀ ≠ -(999999 / 1000000) := by
    intro h
    rw [h] at hval
    linarith
  have hne₂ : r₀ ≠ 10 := by
    intro h
    rw [h] at hval
    linarith
  have h₁ : -(999999 / 1000000) < r₀ := lt_of_le_of_ne hr₀.1 (Ne.symm hne₁)
  have h₂ : r₀ < 10 := lt_of_le_of_ne hr₀.2 hne₂
  refine ⟨r₀, ⟨h₁, h₂, by rw [bond_price_of_pos _ _ _ _ _ hN]; exact hval⟩, ?_⟩
  intro r hr₁ _ hr
  rw [bond_price_of_pos _ _ _ _ _ hN, ← hval] at hr
  rcases lt_trichotomy r r₀ with hlt | heq | hgt
  · have := price_lt_of_rate_lt face annual_coupon_rate years periods_per_year r r₀ hface hc hN
      (by linarith) hlt
    rw [bond_price_of_pos _ _ _ _ _ hN, bond_price_of_pos _ _ _ _ _ hN] at this
    linarith
  · exact heq
  · have := price_lt_of_rate_lt face annual_coupon_rate years periods_per_year r₀ r hface hc hN
      (by linarith) hgt
    rw [bond_price_of_pos _ _ _ _ _ hN, bond_price_of_pos _ _ _ _ _ hN] at this
    linarith

/-- In exact arithmetic over the reals: for a coupon bond with `face > 0`, per-period coupon
at least `1e-12`, `N ≥ 1`, `tol > 0`, `max_iter ≥ 0` and a price strictly between the
prices at `10` and at `-0.999999`, there is a unique rate `r₀` in `(-0.999999, 10)` that
reprices the bond, the solver succeeds, and the rate `p` it returns satisfies
`|price (p) - price| < tol` or `|p - r₀| ≤ 10.999999 / 2 ^ (max_iter + 1)`.  Neither bound
survives the rounding of the `double` program for a large face value. -/
theorem solver_accuracy (powf : ℝ → ℝ → ℝ) (face annual_coupon_rate years price tol : ℝ)
    (periods_per_year max_iter : ℤ)
    (hface : 0 < face)
    (hc : 1 / 10 ^ 12 ≤ face * annual_coupon_rate / (periods_per_year : ℝ))
    (hN : 1 ≤ c_round (years * (periods_per_year : ℝ)))
    (htol : 0 < tol) (hmax : 0 ≤ max_iter)
    (hlo : bond_price_from_periodic_rate 10 face annual_coupon_rate years periods_per_year
      < price)
    (hhi : price < bond_price_from_periodic_rate (-(999999 / 1000000)) face
      annual_coupon_rate years periods_per_year) :
    ∃ r₀ : ℝ, (-(999999 / 1000000) < r₀ ∧ r₀ < 10 ∧
        bond_price_from_periodic_rate r₀ face annual_coupon_rate years periods_per_year
          = price) ∧
      (∀ r : ℝ, -(999999 / 1000000) < r → r < 10 →
        bond_price_from_periodic_rate r face annual_coupon_rate years periods_per_year
          = price → r = r₀) ∧
      ∃ p : ℝ,
        ytm_bisection powf face annual_coupon_rate years price periods_per_year tol max_iter
          = ⟨none, fill_result p periods_per_year⟩ ∧
        (|bond_price_from_periodic_rate p face annual_coupon_rate years periods_per_year
            - price| < tol ∨
          |p - r₀| ≤ (10 + 999999 / 1000000) / (2 : ℝ) ^ (max_iter + 1)) := by
  have hc0 : 0 ≤ face * annual_coupon_rate / (periods_per_year : ℝ) :=
    le_trans (by positivity) hc
  obtain ⟨r₀, ⟨h₁, h₂, hval⟩, huniq⟩ := exists_unique_yield face annual_coupon_rate years price
    periods_per_year hface hc0 hN hlo hhi
  refine ⟨r₀, ⟨h₁, h₂, hval⟩, huniq, ?_⟩
  obtain ⟨p, hp, hacc⟩ := coupon_round_trip powf face annual_coupon_rate years r₀
    periods_per_year tol max_iter hface hN hc htol h₁ h₂.le
  rw [hval] at hp hacc
  have hexp : (2 : ℝ) ^ (max_iter + 1) = 2 ^ (max_iter.toNat + 1) := by
    have hcast : max_iter + 1 = ((max_iter.toNat + 1 : ℕ) : ℤ) := by
      push_cast
      rw [Int.toNat_of_nonneg hmax]
    rw [hcast, zpow_natCast]
  rw [hexp]
  exact ⟨p, hp, hacc⟩

/-- In exact arithmetic, with the real power function: for a bond with
`annual_coupon_rate = 0`, `face > 0`, `N ≥ 1` and a rate `r > -1`, the solver applied to
the price at `r` returns `periodic = r`.  The `double` program returns `r` up to a few
units in the last place. -/
theorem zero_coupon_round_trip (face years r tol : ℝ) (periods_per_year max_iter : ℤ)
    (hface : 0 < face) (hN : 1 ≤ c_round (years * (periods_per_year : ℝ)))
    (hr : -1 < r) :
    ytm_bisection (fun x y : ℝ => x ^ y) face 0 years
        (bond_price_from_periodic_rate r face 0 years periods_per_year) periods_per_year tol
        max_iter
      = ⟨none, ⟨some r, some ((1 + r) ^ periods_per_year - 1),
          some (r * (periods_per_year : ℝ))⟩⟩ := by
  have hb : 0 < 1 + r := by linarith
  have hprice : bond_price_from_periodic_rate r face 0 years periods_per_year
      = face / (1 + r) ^ (c_round (years * (periods_per_year : ℝ))).toNat := by
    rw [bond_price_of_pos _ _ _ _ _ hN]
    simp [pv_reference]
  have hpos : 0 < bond_price_from_periodic_rate r face 0 years periods_per_year := by
    rw [hprice]
    exact div_pos hface (pow_pos hb _)
  rw [ytm_of_zero_coupon (fun x y : ℝ => x ^ y) face 0 years _ periods_per_year tol max_iter
    hN (by norm_num) hpos, hprice]
  have hquot : face / (face / (1 + r) ^ (c_round (years * (periods_per_year : ℝ))).toNat)
      = (1 + r) ^ (c_round (years * (periods_per_year : ℝ))).toNat := by
    have hp : (1 + r) ^ (c_round (years * (periods_per_year : ℝ))).toNat ≠ 0 :=
      (pow_pos hb _).ne.symm
    field_simp
  simp only [hquot, pow_toNat_rpow_inv _ hb.le _ hN, add_sub_cancel_left, fill_result]

/-! ## The bracket invariant away from the lower end -/

/-- The expansion loop returns `high * 2 ^ k` for some `k ≤ n`, with the pricing error
there. -/
theorem expand_loop_exists (f : α → α) (f_low : α) (n : ℕ) (high : α) :
    ∃ k, k ≤ n ∧ expand_loop f f_low n high (f high) = (high * 2 ^ k, f (high * 2 ^ k)) := by
  classical
  by_cases hex : ∃ k, k ≤ n ∧ ¬ f_low * f (high * 2 ^ k) > 0
  · refine ⟨Nat.find hex, (Nat.find_spec hex).1, ?_⟩
    apply expand_loop_trace f f_low n high (Nat.find hex) (Nat.find_spec hex).1
    · intro j hj
      by_contra hcon
      exact Nat.find_min hex hj ⟨by have := (Nat.find_spec hex).1; omega, hcon⟩
    · exact Or.inr (Nat.find_spec hex).2
  · push_neg at hex
    exact ⟨n, le_rfl, expand_loop_trace f f_low n high n le_rfl
      (fun j hj => hex j (by omega)) (Or.inl rfl)⟩

/-- One pass keeps a bracket with `f low > 0 ≥ f high`, provided the pricing error at the
midpoint is not zero. -/
theorem bisect_step_sign (f : α → α) (s : α × α × α)
    (hlh : s.1 ≤ s.2.1) (hl : 0 < f s.1) (hh : f s.2.1 ≤ 0) (hfl : s.2.2 = f s.1)
    (hne : f (bracket_mid s) ≠ 0) :
    s.1 ≤ (bisect_step f s).1 ∧ (bisect_step f s).1 ≤ (bisect_step f s).2.1 ∧
    0 < f (bisect_step f s).1 ∧ f (bisect_step f s).2.1 ≤ 0 ∧
    (bisect_step f s).2.2 = f (bisect_step f s).1 := by
  unfold bracket_mid at hne
  have hm₁ : s.1 ≤ 1 / 2 * (s.1 + s.2.1) := by linarith
  have hm₂ : 1 / 2 * (s.1 + s.2.1) ≤ s.2.1 := by linarith
  simp only [bisect_step, hfl]
  by_cases hsign : f s.1 * f (1 / 2 * (s.1 + s.2.1)) < 0
  · rw [if_pos hsign]
    have hneg : f (1 / 2 * (s.1 + s.2.1)) < 0 := by
      by_contra hcon
      have := mul_nonneg hl.le (not_lt.mp hcon)
      linarith
    exact ⟨le_rfl, hm₁, hl, hneg.le, rfl⟩
  · rw [if_neg hsign]
    have hpos : 0 < f (1 / 2 * (s.1 + s.2.1)) := by
      rcases lt_trichotomy (f (1 / 2 * (s.1 + s.2.1))) 0 with hlt | heq | hgt
      · exact absurd (mul_neg_of_pos_of_neg hl hlt) hsign
      · exact absurd heq hne
      · exact hgt
    exact ⟨hm₁, hm₂, hpos, hh, rfl⟩

/-- Every bracket of the bisection sequence up to the first exit keeps `f low > 0 ≥ f high`
when the first one does and the tolerance is positive. -/
theorem bracket_after_sign (f : α → α) (tol : α) (htol : 0 < tol) (s : α × α × α)
    (hlh : s.1 ≤ s.2.1) (hl : 0 < f s.1) (hh : f s.2.1 ≤ 0) (hfl : s.2.2 = f s.1) (k : ℕ)
    (hbefore : ∀ j, j < k → ¬ |f (bracket_mid (bracket_after f s j))| < tol) :
    s.1 ≤ (bracket_after f s k).1 ∧ (bracket_after f s k).1 ≤ (bracket_after f s k).2.1 ∧
    0 < f (bracket_after f s k).1 ∧ f (bracket_after f s k).2.1 ≤ 0 ∧
    (bracket_after f s k).2.2 = f (bracket_after f s k).1 := by
  induction k with
  | zero =>
    simp only [bracket_after, Function.iterate_zero, id]
    exact ⟨le_rfl, hlh, hl, hh, hfl⟩
  | succ k ih =>
    obtain ⟨h0, h1, h2, h3, h4⟩ := ih (fun j hj => hbefore j (by omega))
    have hne : f (bracket_mid (bracket_after f s k)) ≠ 0 := by
      intro hz
      apply hbefore k (by omega)
      rw [hz, abs_zero]
      exact htol
    have hstep : bracket_after f s (k + 1) = bisect_step f (bracket_after f s k) := by
      simp only [bracket_after, Function.iterate_succ_apply']
    rw [hstep]
    obtain ⟨g0, g1, g2, g3, g4⟩ := bisect_step_sign f (bracket_after f s k) h1 h2 h3 h4 hne
    exact ⟨le_trans h0 g0, g1, g2, g3, g4⟩

/-- The bracket invariant away from the lower end.  For a coupon bond with `face > 0`,
per-period coupon at least `1e-12` and `N ≥ 1`, a positive tolerance, and a price strictly
below the price at `-0.999999` for which bracketing succeeds: every bracket held by the
loop up to the first pass that returns contains a rate that reprices the bond to the
price. -/
theorem bracket_contains_root (powf : ℝ → ℝ → ℝ)
    (face annual_coupon_rate years price tol : ℝ) (periods_per_year max_iter : ℤ)
    (hface : 0 < face)
    (hc : 1 / 10 ^ 12 ≤ face * annual_coupon_rate / (periods_per_year : ℝ))
    (hN : 1 ≤ c_round (years * (periods_per_year : ℝ)))
    (htol : 0 < tol)
    (hbr : (ytm_bisection powf face annual_coupon_rate years price periods_per_year tol
      max_iter).stderr = none)
    (hhi : price < bond_price_from_periodic_rate (-(999999 / 1000000)) face
      annual_coupon_rate years periods_per_year)
    (k : ℕ)
    (hbefore : ∀ j, j < k →
      ¬ |price_error face annual_coupon_rate years price periods_per_year
          (bracket_mid (bracket_after
            (price_error face annual_coupon_rate years price periods_per_year)
            (initial_bracket face annual_coupon_rate years price periods_per_year) j))|
        < tol) :
    ∃ r : ℝ,
      (bracket_after (price_error face annual_coupon_rate years price periods_per_year)
        (initial_bracket face annual_coupon_rate years price periods_per_year) k).1 ≤ r ∧
      r ≤ (bracket_after (price_error face annual_coupon_rate years price periods_per_year)
        (initial_bracket face annual_coupon_rate years price periods_per_year) k).2.1 ∧
      bond_price_from_periodic_rate r face annual_coupon_rate years periods_per_year
        = price := by
  have hc0 : 0 ≤ face * annual_coupon_rate / (periods_per_year : ℝ) :=
    le_trans (by positivity) hc
  have hfl : 0 < price_error face annual_coupon_rate years price periods_per_year
      (-(999999 / 1000000)) := by
    unfold price_error
    linarith
  obtain ⟨m, _, hm⟩ := expand_loop_exists
    (price_error face annual_coupon_rate years price periods_per_year)
    (price_error face annual_coupon_rate years price periods_per_year (-(999999 / 1000000)))
    100 10
  have hsucc := hbr
  rw [ytm_of_coupon powf face annual_coupon_rate years price periods_per_year tol max_iter hN
    (not_zero_coupon_of_le _ hc), hm] at hsucc
  have hfh : price_error face annual_coupon_rate years price periods_per_year (10 * 2 ^ m)
      ≤ 0 := by
    by_contra hcon
    rw [if_pos (mul_pos hfl (not_le.mp hcon))] at hsucc
    simp at hsucc
  have hinit : initial_bracket face annual_coupon_rate years price periods_per_year
      = (-(999999 / 1000000), 10 * 2 ^ m,
          price_error face annual_coupon_rate years price periods_per_year
            (-(999999 / 1000000))) := by
    rw [initial_bracket_eq, hm]
  have hwide : (-(999999 / 1000000) : ℝ) ≤ 10 * 2 ^ m := by
    have : (0 : ℝ) < 10 * 2 ^ m := by positivity
    linarith
  obtain ⟨h0, h1, h2, h3, _⟩ := bracket_after_sign
    (price_error face annual_coupon_rate years price periods_per_year) tol htol
    (initial_bracket face annual_coupon_rate years price periods_per_year)
    (by rw [hinit]; exact hwide) (by rw [hinit]; exact hfl) (by rw [hinit]; exact hfh)
    (by rw [hinit]) k hbefore
  have hfirst : (initial_bracket face annual_coupon_rate years price periods_per_year).1
      = -(999999 / 1000000) := rfl
  rw [hfirst] at h0
  have hcont := pv_reference_continuousOn (face * annual_coupon_rate / (periods_per_year : ℝ))
    face (c_round (years * (periods_per_year : ℝ))).toNat
    (bracket_after (price_error face annual_coupon_rate years price periods_per_year)
      (initial_bracket face annual_coupon_rate years price periods_per_year) k).1
    (bracket_after (price_error face annual_coupon_rate years price periods_per_year)
      (initial_bracket face annual_coupon_rate years price periods_per_year) k).2.1
    (by
      have : (-1 : ℝ) < -(999999 / 1000000) := by norm_num
      exact lt_of_lt_of_le this h0)
  have hivt := intermediate_value_Icc' h1 hcont
  simp only [price_error, bond_price_of_pos _ _ _ _ _ hN] at h2 h3
  have hmem : price ∈ Set.Icc
      (pv_reference (face * annual_coupon_rate / (periods_per_year : ℝ)) face
        (bracket_after (price_error face annual_coupon_rate years price periods_per_year)
          (initial_bracket face annual_coupon_rate years price periods_per_year) k).2.1
        (c_round (years * (periods_per_year : ℝ))).toNat)
      (pv_reference (face * annual_coupon_rate / (periods_per_year : ℝ)) face
        (bracket_after (price_error face annual_coupon_rate years price periods_per_year)
          (initial_bracket face annual_coupon_rate years price periods_per_year) k).1
        (c_round (years * (periods_per_year : ℝ))).toNat) :=
    ⟨by linarith, by linarith⟩
  obtain ⟨r, hr, hval⟩ := hivt hmem
  exact ⟨r, hr.1, hr.2, by rw [bond_price_of_pos _ _ _ _ _ hN]; exact hval⟩

/-! ## Rounding and the conversion to `int` -/

/-- Halves are rounded away from zero, on both sides of zero. -/
theorem round_half_away_halves :
    round_half_away (5 / 2 : α) = 3 ∧ round_half_away (-(5 / 2) : α) = -3 ∧
    round_half_away (1 / 2 : α) = 1 ∧ round_half_away (-(1 / 2) : α) = -1 ∧
    round_half_away (49 / 100 : α) = 0 ∧ round_half_away (-(49 / 100) : α) = 0 := by
  refine ⟨?_, ?_, ?_, ?_, ?_, ?_⟩ <;> norm_num [round_half_away, Int.ceil_eq_iff]

/-- Inside the range of `int` the conversion keeps the value. -/
theorem int_cast_of_range (z : ℤ) (h₁ : -2147483648 ≤ z) (h₂ : z ≤ 2147483647) :
    int_cast z = z := by
  simp only [int_cast, h₁, h₂, and_self, if_true]

/-- C6 at its failing input.  For `years = 3e9` and `periods_per_year = 1` (with
`face = 1000`, `coupon_rate = 0.08`, `price = 950`) the product rounds to
`3000000000 ≥ 1`, which is outside the range of `int`: the period count held in `N` is
`INT_MIN` and the solver fails with `InvalidPeriods`, leaving the result unpopulated. -/
theorem invalid_periods_overflow (powf : α → α → α) (tol : α) (max_iter : ℤ) :
    round_half_away ((3000000000 : α) * ((1 : ℤ) : α)) = 3000000000 ∧
    c_round ((3000000000 : α) * ((1 : ℤ) : α)) = -2147483648 ∧
    ytm_bisection powf 1000 (8 / 100) 3000000000 950 1 tol max_iter
      = ⟨some .InvalidPeriods, ⟨none, none, none⟩⟩ := by
  have hround : round_half_away ((3000000000 : α) * ((1 : ℤ) : α)) = 3000000000 := by
    norm_num [round_half_away]
  have hN : c_round ((3000000000 : α) * ((1 : ℤ) : α)) = -2147483648 := by
    rw [c_round, hround]
    norm_num [int_cast]
  refine ⟨hround, hN, ?_⟩
  rw [ytm_of_periods_le powf 1000 (8 / 100) 3000000000 950 1 tol max_iter (by rw [hN]; norm_num)]
  rfl

/-! ## Round trip: what the solver returns for the price at a rate in the bracket -/

end YTM
